import Mathlib

/-!
Package testfault: recordings, coverage tracking and the fault injector

A shallow embedding of `src/testfault.go` (package `testfault`) and the
properties of its recording comparator (`ErrorMatches`, `TrackErrors`,
`AllErrorsSeen`) and of its single-slot fault injector (`failure.fail`,
`TestChecker.failNow`).

Conventions of the embedding:
* a Go slice is a `List`; an operation that mutates the slice it receives
  returns the slice as it stands when the operation ends;
* a nilable Go value (`error`, `*fault.Call`, `*failure`) is an `Option`,
  `none` standing for `nil`;
* Go `int` is `Int` (only comparisons and `len - 1` occur, no overflow);
* a run-time panic is the `error` side of `Except Panic`;
* the external method `(*fault.Call).Equal` and the standard library's
  `regexp.MustCompile(p).MatchString(t)` are parameters of the functions that
  call them;
* `TrackErrors` is embedded for a candidate that shares no storage with the
  master, `TrackErrorsSelf` for the call `r.TrackErrors(r)` on one slice;
* the stack `fault.ReadStack("")` returns and the value of `testCheckerPrefix`
  are parameters of `record()` and of the operations that call it;
* a checking operation of the `TestChecker` returns the `TestChecker` as the
  operation leaves it and the arguments of its closing call of the wrapped
  checker; what the wrapped checker does with them (return, or unwind with an
  error) is a `RealChecker`, and `errorGen` of the tests is embedded over it.
-/

namespace Testfault

/-- Modelled from the spec: `fault.Call`, the stack frame type of the external
library `github.com/surullabs/fault`. The repository reads its field `Name`
only; `frame` stands for whatever else identifies the frame. -/
structure Call where
  Name : String
  frame : Nat
deriving DecidableEq, Repr

/-- A non-nil Go `error` value, identified by the text of its `Error()`. -/
structure GoError where
  msg : String
deriving DecidableEq, Repr

/-- The method `Error()` of a Go `error`. -/
def GoError.Error (e : GoError) : String := e.msg

/-- The run-time panics the embedded code can raise. -/
inductive Panic where
  | indexOutOfRange
  | regexpCompile
deriving DecidableEq, Repr

/-- `type site struct { fn string; call *fault.Call; err error }`. -/
structure site where
  fn : String
  call : Option Call
  err : Option GoError
deriving DecidableEq, Repr

/-- `type Recording []site`. -/
abbrev Recording := List site

/-- `type recorder struct { sites []site }`. -/
structure recorder where
  sites : List site
deriving DecidableEq, Repr

/-- `type failure struct { index int; err error }`. -/
structure failure where
  index : Int
  err : Option GoError
deriving DecidableEq, Repr

/-- `type TestChecker struct { recorder *recorder; fail *failure;
checker fault.FaultCheck; onError func(...interface{}) }`. The wrapped checker
and the sink are external values of types `χ` and `σ`; `recorder` is the
recorder the pointer refers to (`NewTestChecker` and `StartRecording`, the only
writers of the field, store a fresh one). -/
structure TestChecker (χ σ : Type) where
  recorder : recorder
  fail : Option failure
  checker : χ
  onError : Option σ

/-- The two errors `TrackErrors` builds with `fmt.Errorf`:
`length ne nr` is `fmt.Errorf("error recording has %d entries while master has %d", len(e), len(r))`,
`position i` is `fmt.Errorf("recording number %d doesn't match master", i)`. -/
inductive TrackError where
  | length (ne nr : Nat)
  | position (i : Nat)
deriving DecidableEq, Repr

/-- The text of the error, as `fmt.Errorf` formats it. -/
def TrackError.Error : TrackError → String
  | .length ne nr =>
    "error recording has " ++ toString ne ++ " entries while master has " ++ toString nr
  | .position i => "recording number " ++ toString i ++ " doesn't match master"

/-- The condition of the `if` in the loop of `TrackErrors`:
`!r[i].call.Equal(s.call) || r[i].fn != s.fn`, for the master entry `m = r[i]`
and the candidate entry `s`. `equal` is the external method
`(*fault.Call).Equal`, receiver first. -/
def mismatch (equal : Option Call → Option Call → Bool) (m s : site) : Bool :=
  !equal m.call s.call || m.fn != s.fn

/-- The second statement of the loop body of `TrackErrors`:
`if s.err != nil { r[i].err = s.err }`, giving the master entry `m = r[i]` as the
statement leaves it. -/
def mergeErr (m s : site) : site :=
  if s.err ≠ none then { m with err := s.err } else m

/-- The loop `for i, s := range e { ... }` of `TrackErrors`, entered at index
`i` with the master entries `r[i:]` and the candidate entries `e[i:]`. The
result is what the function returns (or the panic of `r[i]` when the master has
no entry `i`) paired with `r[i:]` as the loop leaves it. -/
def trackLoop (equal : Option Call → Option Call → Bool) :
    Nat → List site → List site → Except Panic (Option TrackError) × List site
  | _, r, [] => (.ok none, r)
  | _, [], _ :: _ => (.error .indexOutOfRange, [])
  | i, m :: r, s :: e =>
    if mismatch equal m s then
      (.ok (some (.position i)), m :: r)
    else
      let rest := trackLoop equal (i + 1) r e
      (rest.1, mergeErr m s :: rest.2)

/-- `func (r Recording) TrackErrors(e Recording) (err error)`: the returned
error (`none` for `nil`) and the master `r` after the call. -/
def Recording.TrackErrors (equal : Option Call → Option Call → Bool) (r e : Recording) :
    Except Panic (Option TrackError) × Recording :=
  if e.length > r.length then
    (.ok (some (.length e.length r.length)), r)
  else
    trackLoop equal 0 r e

/-- The loop of `TrackErrors` in the call `r.TrackErrors(r)`, where master and
candidate are one and the same slice: the candidate entry `s` of iteration `i`
is read from the very entry `r[i]` the iteration may write. -/
def trackLoopSelf (equal : Option Call → Option Call → Bool) :
    Nat → List site → Except Panic (Option TrackError) × List site
  | _, [] => (.ok none, [])
  | i, m :: r =>
    let s := m
    if mismatch equal m s then
      (.ok (some (.position i)), m :: r)
    else
      let rest := trackLoopSelf equal (i + 1) r
      (rest.1, mergeErr m s :: rest.2)

/-- The call `r.TrackErrors(r)` on one slice (`len(e) > len(r)` is false). -/
def Recording.TrackErrorsSelf (equal : Option Call → Option Call → Bool) (r : Recording) :
    Except Panic (Option TrackError) × Recording :=
  if r.length > r.length then
    (.ok (some (.length r.length r.length)), r)
  else
    trackLoopSelf equal 0 r

/-- `func (r Recording) AllErrorsSeen() bool`. -/
def Recording.AllErrorsSeen : Recording → Bool
  | [] => true
  | s :: r => if s.err = none then false else Recording.AllErrorsSeen r

/-- The element `r[index]` of a slice for a Go `int` index: a panic when the
index is negative or not below the length. -/
def index (r : List site) (i : Int) : Except Panic site :=
  if i < 0 then .error .indexOutOfRange
  else
    match r[i.toNat]? with
    | some s => .ok s
    | none => .error .indexOutOfRange

/-- `func (r Recording) ErrorMatches(index int, match string) bool`.
`matchString pat text` is `regexp.MustCompile(pat).MatchString(text)` of the
standard library, `none` when `MustCompile` panics on `pat`. -/
def Recording.ErrorMatches (matchString : String → String → Option Bool)
    (r : Recording) (idx : Int) (pat : String) : Except Panic Bool :=
  if idx ≥ (r.length : Int) then .ok false
  else
    match index r idx with
    | .error p => .error p
    | .ok s =>
      match s.err with
      | none => .ok false
      | some err =>
        match matchString pat err.Error with
        | some b => .ok b
        | none => .error .regexpCompile

/-- `func (r *recorder) last() int { return len(r.sites) - 1 }`. -/
def recorder.last (r : recorder) : Int := (r.sites.length : Int) - 1

/-- `func (f *failure) fail(index int) error`, on the nilable receiver `f`. -/
def failure.fail (f : Option failure) (index : Int) : Option GoError :=
  match f with
  | some f => if f.index = index then f.err else none
  | none => none

/-- `func (t *TestChecker) failNow() error { return t.fail.fail(t.recorder.last()) }`. -/
def TestChecker.failNow {χ σ : Type} (t : TestChecker χ σ) : Option GoError :=
  failure.fail t.fail t.recorder.last

/-- `func (t *TestChecker) FailAt(index int, err error) { t.fail = &failure{index, err} }`. -/
def TestChecker.FailAt {χ σ : Type} (t : TestChecker χ σ) (index : Int) (err : Option GoError) :
    TestChecker χ σ :=
  { t with fail := some ⟨index, err⟩ }

/-- `func (t *TestChecker) ResetFailures() { t.fail = nil }`. -/
def TestChecker.ResetFailures {χ σ : Type} (t : TestChecker χ σ) : TestChecker χ σ :=
  { t with fail := none }

/-- The calls `M.TrackErrors(C1)`, ..., `M.TrackErrors(Cn)` made in this order
on one master, as the loop of `TestTrackErrors` makes them: the values they
return and the master after the last call. -/
def trackAll (equal : Option Call → Option Call → Bool) :
    Recording → List Recording → List (Except Panic (Option TrackError)) × Recording
  | M, [] => ([], M)
  | M, C :: Cs =>
    let step := Recording.TrackErrors equal M C
    let rest := trackAll equal step.2 Cs
    (step.1 :: rest.1, rest.2)

/-! ## The recorder -/

/-- `strings.HasPrefix(s, p)` of the standard library. -/
def HasPrefix (s p : String) : Bool := p.data.isPrefixOf s.data

/-- `strings.TrimPrefix(s, p)` of the standard library: `s` without its leading
`p`, and `s` itself when it does not start with `p`. -/
def TrimPrefix (s p : String) : String :=
  if HasPrefix s p then ⟨s.data.drop p.data.length⟩ else s

/-- The first loop of `record()`, which looks for the first frame whose name
starts with `testCheckerPrefix`: the `callIndex` it leaves, `none` standing for
the initial `-1`. -/
def callIndex (pre : String) : List Call → Option Nat
  | [] => none
  | c :: stack => if HasPrefix c.Name pre then some 0 else (callIndex pre stack).map (· + 1)

/-- `func newRecorder() *recorder { return &recorder{sites: make([]site, 0)} }`. -/
def newRecorder : recorder := { sites := [] }

/-- `func (r *recorder) record()`. `stack` is what the external
`fault.ReadStack("")` returns, the most recent frame first, and `pre` is the
package variable `testCheckerPrefix` (`fault.TypePrefix(&TestChecker{}) + "."`,
computed by the external library). -/
def recorder.record (pre : String) (stack : List Call) (r : recorder) : recorder :=
  let zero : site := { fn := "", call := none, err := none }
  let s : site :=
    match callIndex pre stack with
    | none => zero
    | some j =>
      if stack.length > j + 1 then
        match stack[j + 1]?, stack[j]? with
        | some c, some f => { fn := TrimPrefix f.Name pre, call := some c, err := none }
        | _, _ => zero
      else zero
  { sites := r.sites ++ [s] }

/-- `func (r *recorder) trackError(err error)`. -/
def recorder.trackError (r : recorder) (err : Option GoError) : recorder :=
  if r.sites.length > 0 then
    { sites := r.sites.modify (fun s => { s with err := err }) (r.sites.length - 1) }
  else r

/-! ## The checker decorator -/

/-- `func (t *TestChecker) StartRecording() { t.recorder = newRecorder() }`. -/
def TestChecker.StartRecording {χ σ : Type} (t : TestChecker χ σ) : TestChecker χ σ :=
  { t with recorder := newRecorder }

/-- `func (t *TestChecker) Recording() Recording { return t.recorder.sites }`. -/
def TestChecker.Recording {χ σ : Type} (t : TestChecker χ σ) : Recording := t.recorder.sites

/-- `func (t *TestChecker) True(condition bool, errStr string)`: the
`TestChecker` after `t.recorder.record()` and the arguments of the call
`t.checker.True(condition, errStr)` that ends the function. -/
def TestChecker.True {χ σ : Type} (pre : String) (stack : List Call) (t : TestChecker χ σ)
    (condition : Bool) (errStr : String) : TestChecker χ σ × (Bool × String) :=
  let t1 := { t with recorder := t.recorder.record pre stack }
  let condition := if t1.failNow ≠ none then false else condition
  (t1, (condition, errStr))

/-- `func (t *TestChecker) Truef(condition bool, format string, args ...interface{})`:
the `TestChecker` after `record()` and the arguments of
`t.checker.Truef(condition, format, args...)`. -/
def TestChecker.Truef {χ σ : Type} (pre : String) (stack : List Call) (t : TestChecker χ σ)
    (condition : Bool) (format : String) (args : List String) :
    TestChecker χ σ × (Bool × String × List String) :=
  let t1 := { t with recorder := t.recorder.record pre stack }
  let condition := if t1.failNow ≠ none then false else condition
  (t1, (condition, format, args))

/-- `func (t *TestChecker) Return(i interface{}, err error) interface{}`: the
`TestChecker` after `record()` and the arguments of `t.checker.Return(i, err)`. -/
def TestChecker.Return {χ σ ι : Type} (pre : String) (stack : List Call) (t : TestChecker χ σ)
    (i : ι) (err : Option GoError) : TestChecker χ σ × (ι × Option GoError) :=
  let t1 := { t with recorder := t.recorder.record pre stack }
  let failed := t1.failNow
  let err := if failed ≠ none ∧ err = none then failed else err
  (t1, (i, err))

/-- `func (t *TestChecker) Error(err error)`: the `TestChecker` after `record()`
and the argument of `t.checker.Error(err)`. -/
def TestChecker.Error {χ σ : Type} (pre : String) (stack : List Call) (t : TestChecker χ σ)
    (err : Option GoError) : TestChecker χ σ × Option GoError :=
  let t1 := { t with recorder := t.recorder.record pre stack }
  let failed := t1.failNow
  let err := if failed ≠ none ∧ err = none then failed else err
  (t1, err)

/-- `func (t *TestChecker) Output(i interface{}, err error) interface{}`: the
`TestChecker` after `record()` and the arguments of `t.checker.Output(i, err)`. -/
def TestChecker.Output {χ σ ι : Type} (pre : String) (stack : List Call) (t : TestChecker χ σ)
    (i : ι) (err : Option GoError) : TestChecker χ σ × (ι × Option GoError) :=
  let t1 := { t with recorder := t.recorder.record pre stack }
  let failed := t1.failNow
  let err := if failed ≠ none ∧ err = none then failed else err
  (t1, (i, err))

/-- `func (t *TestChecker) Failure(err error) fault.Fault`: the `TestChecker`
after `record()` and the argument of `t.checker.Failure(err)`. -/
def TestChecker.Failure {χ σ : Type} (pre : String) (stack : List Call) (t : TestChecker χ σ)
    (err : Option GoError) : TestChecker χ σ × Option GoError :=
  let t1 := { t with recorder := t.recorder.record pre stack }
  let failed := t1.failNow
  let err := if failed ≠ none ∧ err = none then failed else err
  (t1, err)

/-! ## Patching -/

/-- A value of the interface type `fault.FaultCheck`, as a dependency slot or
the field `checker` holds it: some other checker `c`, or the pointer to the
`TestChecker` whose methods are being called. -/
inductive FaultCheck (κ : Type) where
  | other (c : κ)
  | tester
deriving DecidableEq, Repr

/-- `type Resetter struct { Reset func() }`, the closure being a change of the
state `S` it captured a reference to. -/
structure Resetter (S : Type) where
  Reset : S → S

/-- `func (t *TestChecker) Patch(orig *fault.FaultCheck) Resetter`: the
`TestChecker` after the call, the slot `*orig` after the call, and the returned
`Resetter`, which acts on the slot. -/
def TestChecker.Patch {κ σ : Type} (t : TestChecker (FaultCheck κ) σ) (orig : FaultCheck κ) :
    TestChecker (FaultCheck κ) σ × FaultCheck κ × Resetter (FaultCheck κ) :=
  let original := orig
  ({ t with checker := original }, FaultCheck.tester, { Reset := fun _ => original })

/-- `func (t *TestChecker) OnError(fn func(...interface{})) Resetter`: the
`TestChecker` after the call and the returned `Resetter`, which acts on the
`TestChecker`. -/
def TestChecker.OnError {χ σ : Type} (t : TestChecker χ σ) (fn : Option σ) :
    TestChecker χ σ × Resetter (TestChecker χ σ) :=
  let orig := t.onError
  ({ t with onError := fn }, { Reset := fun t1 => { t1 with onError := orig } })

/-! ## Executions against a wrapped checker -/

/-- Modelled from the spec: a wrapped checker, an implementation of the
interface `fault.FaultCheck` of the external library. Each checking operation
is given by the value with which it unwinds (panics) on its arguments, `none`
when it returns; `RecoverPanic errPtr panicked` is the error the operation
leaves in `*errPtr`, for the value `*errPtr` held and the recovered value
`panicked` (`none` when nothing was unwinding). -/
structure RealChecker (ι : Type) where
  True : Bool → String → Option GoError
  Truef : Bool → String → List String → Option GoError
  Return : ι → Option GoError → Option GoError
  Error : Option GoError → Option GoError
  Output : ι → Option GoError → Option GoError
  RecoverPanic : Option GoError → Option GoError → Option GoError

/-- Modelled from the spec: what the spec says of the wrapped checker. A
check unwinds exactly when its condition is false or its error non-nil, and
recovery leaves in `*errPtr` the error the check unwound with (nil when nothing
was unwinding). -/
structure RealChecker.Sound {ι : Type} (c : RealChecker ι) : Prop where
  true_pass : ∀ m, c.True true m = none
  true_stop : ∀ m, c.True false m ≠ none
  truef_pass : ∀ f a, c.Truef true f a = none
  truef_stop : ∀ f a, c.Truef false f a ≠ none
  return_pass : ∀ v, c.Return v none = none
  return_stop : ∀ v e, c.Return v (some e) ≠ none
  error_pass : c.Error none = none
  error_stop : ∀ e, c.Error (some e) ≠ none
  output_pass : ∀ v, c.Output v none = none
  output_stop : ∀ v e, c.Output v (some e) ≠ none
  recover_none : c.RecoverPanic none none = none
  recover_some : ∀ p, c.RecoverPanic none (some p) = some p

/-- `func (t *TestChecker) RecoverPanic(errPtr *error, panicked interface{})`:
the `TestChecker` after the call, the error in `*errPtr` after the call, and,
when the sink is called, the sink with the error whose trace it is given. -/
def TestChecker.RecoverPanic {ι σ : Type} (t : TestChecker (RealChecker ι) σ)
    (errPtr panicked : Option GoError) :
    TestChecker (RealChecker ι) σ × Option GoError × Option (σ × GoError) :=
  let err := t.checker.RecoverPanic errPtr panicked
  let t1 := { t with recorder := t.recorder.trackError err }
  let sink :=
    match t1.onError, err with
    | some fn, some e => some (fn, e)
    | _, _ => none
  (t1, err, sink)

/-- `func checkErr(errstr string, pass bool) error` of `src/testfault_test.go`. -/
def checkErr (errstr : String) (pass : Bool) : Option GoError :=
  if pass then none else some ⟨errstr⟩

/-- `func checkReturn(errstr string, pass bool) (int, error)` of
`src/testfault_test.go`. -/
def checkReturn (errstr : String) (pass : Bool) : Int × Option GoError :=
  (0, checkErr errstr pass)

/-- The stacks `fault.ReadStack("")` returns inside `record()` for the five
checks of `errorGen`, in their order. -/
structure Stacks where
  sTrue : List Call
  sTruef : List Call
  sReturn : List Call
  sError : List Call
  sOutput : List Call

/-- The body of `errorGen` (src/testfault_test.go) after its `defer`, called
with five guards and the `TestChecker` as its `checker`: the `TestChecker` when
the body ends, and the value it unwinds with, `none` when it reaches `return`. -/
def errorGenBody {σ : Type} (pre : String) (st : Stacks) (t : TestChecker (RealChecker Int) σ)
    (p0 p1 p2 p3 p4 : Bool) : TestChecker (RealChecker Int) σ × Option GoError :=
  let a := t.True pre st.sTrue p0 "true error"
  match a.1.checker.True a.2.1 a.2.2 with
  | some p => (a.1, some p)
  | none =>
    let b := a.1.Truef pre st.sTruef p1 "truef %s" ["error"]
    match b.1.checker.Truef b.2.1 b.2.2.1 b.2.2.2 with
    | some p => (b.1, some p)
    | none =>
      let c := b.1.Return pre st.sReturn (checkReturn "return error" p2).1
        (checkReturn "return error" p2).2
      match c.1.checker.Return c.2.1 c.2.2 with
      | some p => (c.1, some p)
      | none =>
        let d := c.1.Error pre st.sError (checkErr "error check" p3)
        match d.1.checker.Error d.2 with
        | some p => (d.1, some p)
        | none =>
          let e := d.1.Output pre st.sOutput (checkReturn "output error" p4).1
            (checkReturn "output error" p4).2
          (e.1, e.1.checker.Output e.2.1 e.2.2)

/-- `func errorGen(checker fault.FaultCheck, pass ...bool) (err error)` of
`src/testfault_test.go`, called with five guards and the `TestChecker` as its
`checker`: the body, then the deferred `checker.Recover(&err)`, which is
`t.RecoverPanic(&err, recover())`. The result is the `TestChecker` after the
execution, the returned `err`, and the call of the sink, if any. -/
def errorGen {σ : Type} (pre : String) (st : Stacks) (t : TestChecker (RealChecker Int) σ)
    (p0 p1 p2 p3 p4 : Bool) :
    TestChecker (RealChecker Int) σ × Option GoError × Option (σ × GoError) :=
  let body := errorGenBody pre st t p0 p1 p2 p3 p4
  body.1.RecoverPanic none body.2

/-- Modelled from the spec: the context of one call of a checking operation of
the `TestChecker`, as `fault.ReadStack` sees it from inside `record()`: the
frames `inner` above the operation, the frame of the operation itself, the
frame `caller` of the code that called it, and the frames `outer` below. -/
structure CallSite where
  inner : List Call
  frame : Nat
  caller : Call
  outer : List Call

/-- Modelled from the spec: the stack read inside `record()` when the operation
`name` of the `TestChecker` is called in the context `cs`; the frame of the
operation is named `testCheckerPrefix` followed by `name`. -/
def stackOf (pre name : String) (cs : CallSite) : List Call :=
  cs.inner ++ { Name := pre ++ name, frame := cs.frame } :: cs.caller :: cs.outer

/-- The frames above the operation are no methods of the `TestChecker`. -/
def CallSite.Valid (pre : String) (cs : CallSite) : Prop :=
  ∀ g ∈ cs.inner, HasPrefix g.Name pre = false

/-- The stacks of the five checks of `errorGen`, each called in its context. -/
def stacksOf (pre : String) (c0 c1 c2 c3 c4 : CallSite) : Stacks where
  sTrue := stackOf pre "True" c0
  sTruef := stackOf pre "Truef" c1
  sReturn := stackOf pre "Return" c2
  sError := stackOf pre "Error" c3
  sOutput := stackOf pre "Output" c4

/-! ## Example data, after `src/testfault_test.go` -/

/-- An instance of `(*fault.Call).Equal` for the examples: two call sites are
equal when both are nil or both are the same frame. -/
def sameFrame (a b : Option Call) : Bool := decide (a = b)

/-- The frame of `errorGen` (src/testfault_test.go) at a line. -/
def errorGenAt (line : Nat) : Option Call :=
  some ⟨"github.com/surullabs/testfault.errorGen", line⟩

/-- The recording `TestRecording` expects of `errorGen` with every guard true:
the clean master of `TestTrackErrors`. -/
def cleanRun : Recording :=
  [⟨"True", errorGenAt 68, none⟩, ⟨"Truef", errorGenAt 69, none⟩,
   ⟨"Return", errorGenAt 70, none⟩, ⟨"Error", errorGenAt 71, none⟩,
   ⟨"Output", errorGenAt 72, none⟩]

/-- The recording expected of `errorGen` with guards `[false, ...]`: the
recording `one` of `TestTrackErrors`. -/
def trueRun : Recording :=
  [⟨"True", errorGenAt 68, some ⟨"true error"⟩⟩]

/-- The recording expected of `errorGen` with guards
`[true, false, true, true, true]`. -/
def truefRun : Recording :=
  [⟨"True", errorGenAt 68, none⟩, ⟨"Truef", errorGenAt 69, some ⟨"truef error"⟩⟩]

/-- A recording whose first site is the first site of `errorGen`, holding an
error, and whose second site is another check made from another line. -/
def otherRun : Recording :=
  [⟨"True", errorGenAt 68, some ⟨"true error"⟩⟩, ⟨"Return", errorGenAt 70, none⟩]

/-- The `fmt.Sprintf` of a format whose only verbs are `%s`, on characters. -/
def sprintfChars : List Char → List String → List Char
  | '%' :: 's' :: rest, a :: as => a.data ++ sprintfChars rest as
  | c :: rest, as => c :: sprintfChars rest as
  | [], _ => []

/-- An instance of the wrapped checker for the examples, with the errors
`TestRecording` and `TestSimulatedFailures` expect of
`fault.NewChecker().SetFaulter(fault.Simple)`. -/
def simpleChecker : RealChecker Int where
  True := fun c m => if c then none else some ⟨m⟩
  Truef := fun c f a => if c then none else some ⟨⟨sprintfChars f.data a⟩⟩
  Return := fun _ e => e
  Error := fun e => e
  Output := fun i e => e.map (fun e => ⟨e.msg ++ "; output: " ++ toString i⟩)
  RecoverPanic := fun errPtr panicked =>
    match panicked with
    | some p => some p
    | none => errPtr

/-- The value of `testCheckerPrefix` in the examples. -/
def examplePre : String := "github.com/surullabs/testfault.(*TestChecker)."

/-- The context of a check of `errorGen` at a line of `src/testfault_test.go`,
under `record()` and above the test that calls `errorGen`. -/
def errorGenSite (line : Nat) : CallSite where
  inner := [⟨"github.com/surullabs/testfault.(*recorder).record", 68⟩]
  frame := 0
  caller := ⟨"github.com/surullabs/testfault.errorGen", line⟩
  outer := [⟨"github.com/surullabs/testfault.TestRecording", 153⟩]

/-- The stacks of the five checks of `errorGen` in the examples. -/
def errorGenStacks : Stacks :=
  stacksOf examplePre (errorGenSite 68) (errorGenSite 69) (errorGenSite 70)
    (errorGenSite 71) (errorGenSite 72)

/-- The `TestChecker` of the tests, `NewTestChecker(nil)` patched over the
simple checker. -/
def exampleTester : TestChecker (RealChecker Int) Unit where
  recorder := newRecorder
  fail := none
  checker := simpleChecker
  onError := none

/-! ## The loop of `TrackErrors` -/

theorem mergeErr_fn (m s : site) : (mergeErr m s).fn = m.fn := by
  unfold mergeErr; split <;> rfl

theorem mergeErr_call (m s : site) : (mergeErr m s).call = m.call := by
  unfold mergeErr; split <;> rfl

theorem mergeErr_err (m s : site) :
    (mergeErr m s).err = if s.err ≠ none then s.err else m.err := by
  unfold mergeErr; split <;> rfl

theorem mergeErr_err_ne_none (m s : site) (h : m.err ≠ none) : (mergeErr m s).err ≠ none := by
  rw [mergeErr_err]; split <;> assumption

theorem mergeErr_self (m : site) : mergeErr m m = m := by
  unfold mergeErr; split <;> rfl

/-- The loop characterised by the number `n` of iterations it completes: the
first `n` master entries are merged (and did not mismatch), the others are
untouched, and the loop ends with `nil` after the last candidate entry, with
the position error of index `i + n` at a mismatch, or with the panic of `r[n]`
when the master is shorter than the candidate. -/
theorem trackLoop_spec (equal : Option Call → Option Call → Bool) (e : List site) :
    ∀ (r : List site) (i : Nat), ∃ n, n ≤ e.length ∧ n ≤ r.length ∧
      (∀ j, j < n → ∀ m s, r[j]? = some m → e[j]? = some s →
        mismatch equal m s = false ∧ (trackLoop equal i r e).2[j]? = some (mergeErr m s)) ∧
      (∀ j, n ≤ j → (trackLoop equal i r e).2[j]? = r[j]?) ∧
      ((n = e.length ∧ (trackLoop equal i r e).1 = .ok none) ∨
       (n < e.length ∧ (trackLoop equal i r e).1 = .ok (some (.position (i + n))) ∧
          ∃ m s, r[n]? = some m ∧ e[n]? = some s ∧ mismatch equal m s = true) ∨
       (n < e.length ∧ n = r.length ∧ (trackLoop equal i r e).1 = .error .indexOutOfRange)) := by
  induction e with
  | nil =>
    intro r i
    refine ⟨0, le_refl _, Nat.zero_le _, ?_, ?_, Or.inl ⟨rfl, ?_⟩⟩
    · intro j hj; omega
    · intro j _; simp [trackLoop]
    · simp [trackLoop]
  | cons s e ih =>
    intro r i
    cases r with
    | nil =>
      refine ⟨0, Nat.zero_le _, le_refl _, ?_, ?_, Or.inr (Or.inr ⟨by simp, rfl, ?_⟩)⟩
      · intro j hj; omega
      · intro j _; simp [trackLoop]
      · simp [trackLoop]
    | cons m r =>
      by_cases hm : mismatch equal m s = true
      · refine ⟨0, Nat.zero_le _, Nat.zero_le _, ?_, ?_, Or.inr (Or.inl ⟨by simp, ?_, m, s, ?_⟩)⟩
        · intro j hj; omega
        · intro j _; simp [trackLoop, hm]
        · simp [trackLoop, hm]
        · simp [hm]
      · obtain ⟨n, hne, hnr, hlow, hhigh, hres⟩ := ih r (i + 1)
        have hm0 : mismatch equal m s = false := by simpa using hm
        refine ⟨n + 1, by simpa using hne, by simpa using hnr, ?_, ?_, ?_⟩
        · intro j hj m0 s0 hr he
          cases j with
          | zero =>
            simp at hr he
            subst hr; subst he
            simp [trackLoop, hm0]
          | succ j =>
            simp at hr he
            have := hlow j (by omega) m0 s0 hr he
            simpa [trackLoop, hm0] using this
        · intro j hj
          cases j with
          | zero => omega
          | succ j =>
            have := hhigh j (by omega)
            simpa [trackLoop, hm0] using this
        · rcases hres with ⟨h1, h2⟩ | ⟨h1, h2, m0, s0, h3, h4, h5⟩ | ⟨h1, h2, h3⟩
          · exact Or.inl ⟨by simp [h1], by simpa [trackLoop, hm0] using h2⟩
          · refine Or.inr (Or.inl ⟨by simpa using h1, ?_, m0, s0, by simpa using h3,
              by simpa using h4, h5⟩)
            have : i + 1 + n = i + (n + 1) := by omega
            simpa [trackLoop, hm0, this] using h2
          · exact Or.inr (Or.inr ⟨by simpa using h1, by simp [h2],
              by simpa [trackLoop, hm0] using h3⟩)

theorem trackLoop_length (equal : Option Call → Option Call → Bool) (e : List site) :
    ∀ (r : List site) (i : Nat), (trackLoop equal i r e).2.length = r.length := by
  induction e with
  | nil => intro r i; simp [trackLoop]
  | cons s e ih =>
    intro r i
    cases r with
    | nil => simp [trackLoop]
    | cons m r =>
      by_cases hm : mismatch equal m s = true
      · simp [trackLoop, hm]
      · simp [trackLoop, hm, ih]

theorem mismatch_eq_false (equal : Option Call → Option Call → Bool) (m s : site) :
    mismatch equal m s = false ↔ equal m.call s.call = true ∧ m.fn = s.fn := by
  simp [mismatch]

theorem mismatch_eq_true (equal : Option Call → Option Call → Bool) (m s : site) :
    mismatch equal m s = true ↔ equal m.call s.call = false ∨ m.fn ≠ s.fn := by
  simp [mismatch]

/-! ## `TrackErrors` -/

theorem TrackErrors_length (equal : Option Call → Option Call → Bool) (M C : Recording) :
    (Recording.TrackErrors equal M C).2.length = M.length := by
  unfold Recording.TrackErrors
  split
  · rfl
  · exact trackLoop_length equal C M 0

/-- Every outcome of `TrackErrors`: the length error with the master untouched,
or the loop run for `n` iterations. -/
theorem TrackErrors_spec (equal : Option Call → Option Call → Bool) (M C : Recording) :
    (M.length < C.length ∧
      Recording.TrackErrors equal M C = (.ok (some (.length C.length M.length)), M)) ∨
    (C.length ≤ M.length ∧ ∃ n, n ≤ C.length ∧
      (∀ j, j < n → ∀ m s, M[j]? = some m → C[j]? = some s →
        mismatch equal m s = false ∧
          (Recording.TrackErrors equal M C).2[j]? = some (mergeErr m s)) ∧
      (∀ j, n ≤ j → (Recording.TrackErrors equal M C).2[j]? = M[j]?) ∧
      ((n = C.length ∧ (Recording.TrackErrors equal M C).1 = .ok none) ∨
       (n < C.length ∧ (Recording.TrackErrors equal M C).1 = .ok (some (.position n)) ∧
          ∃ m s, M[n]? = some m ∧ C[n]? = some s ∧ mismatch equal m s = true))) := by
  by_cases h : M.length < C.length
  · left
    refine ⟨h, ?_⟩
    simp [Recording.TrackErrors, h]
  · right
    have hle : C.length ≤ M.length := by omega
    refine ⟨hle, ?_⟩
    have heq : Recording.TrackErrors equal M C = trackLoop equal 0 M C := by
      simp [Recording.TrackErrors, h]
    obtain ⟨n, hne, _, hlow, hhigh, hres⟩ := trackLoop_spec equal C M 0
    rw [heq]
    refine ⟨n, hne, hlow, hhigh, ?_⟩
    rcases hres with h1 | ⟨h1, h2, h3⟩ | ⟨h1, h2, _⟩
    · exact Or.inl h1
    · exact Or.inr ⟨h1, by simpa using h2, h3⟩
    · omega

/-- A candidate that is no longer than the master and mismatches nowhere is
merged whole and `nil` is returned. -/
theorem TrackErrors_of_agree (equal : Option Call → Option Call → Bool) (M C : Recording)
    (hlen : C.length ≤ M.length)
    (hagree : ∀ (i : Nat) (m s : site), M[i]? = some m → C[i]? = some s → mismatch equal m s = false) :
    (Recording.TrackErrors equal M C).1 = .ok none ∧
    (∀ (i : Nat) (m s : site), M[i]? = some m → C[i]? = some s →
      (Recording.TrackErrors equal M C).2[i]? = some (mergeErr m s)) ∧
    (∀ i, C.length ≤ i → (Recording.TrackErrors equal M C).2[i]? = M[i]?) := by
  rcases TrackErrors_spec equal M C with ⟨h, _⟩ | ⟨_, n, _, hlow, hhigh, hres⟩
  · omega
  · rcases hres with ⟨h1, h2⟩ | ⟨_, _, m, s, hm, hs, hmis⟩
    · subst h1
      refine ⟨h2, ?_, hhigh⟩
      intro i m s hm hs
      have hi : i < C.length := by
        rcases Nat.lt_or_ge i C.length with h | h
        · exact h
        · rw [List.getElem?_eq_none h] at hs; cases hs
      exact (hlow i hi m s hm hs).2
    · rw [hagree n m s hm hs] at hmis; cases hmis

/-- A candidate that is no longer than the master and first mismatches at index
`k` gets the position error of `k`; the entries before `k` are merged, those
from `k` on untouched. -/
theorem TrackErrors_of_first_mismatch (equal : Option Call → Option Call → Bool)
    (M C : Recording) (k : Nat) (mk sk : site)
    (hlen : C.length ≤ M.length)
    (hmk : M[k]? = some mk) (hsk : C[k]? = some sk) (hmis : mismatch equal mk sk = true)
    (hagree : ∀ i, i < k → ∀ m s, M[i]? = some m → C[i]? = some s →
      mismatch equal m s = false) :
    (Recording.TrackErrors equal M C).1 = .ok (some (.position k)) ∧
    (∀ i, i < k → ∀ m s, M[i]? = some m → C[i]? = some s →
      (Recording.TrackErrors equal M C).2[i]? = some (mergeErr m s)) ∧
    (∀ i, k ≤ i → (Recording.TrackErrors equal M C).2[i]? = M[i]?) := by
  have hk : k < C.length := by
    rcases Nat.lt_or_ge k C.length with h | h
    · exact h
    · rw [List.getElem?_eq_none h] at hsk; cases hsk
  rcases TrackErrors_spec equal M C with ⟨h, _⟩ | ⟨_, n, hn, hlow, hhigh, hres⟩
  · omega
  · have hnk : n = k := by
      rcases Nat.lt_trichotomy n k with h | h | h
      · rcases hres with ⟨h1, _⟩ | ⟨_, _, m, s, hm, hs, hmis2⟩
        · omega
        · rw [hagree n h m s hm hs] at hmis2; cases hmis2
      · exact h
      · rw [(hlow k h mk sk hmk hsk).1] at hmis; cases hmis
    subst hnk
    rcases hres with ⟨h1, _⟩ | ⟨_, h2, _⟩
    · omega
    · exact ⟨h2, fun i hi m s hm hs => (hlow i hi m s hm hs).2, hhigh⟩

/-- A position error of index `k` is returned only at the first mismatch. -/
theorem TrackErrors_position_inv (equal : Option Call → Option Call → Bool)
    (M C : Recording) (k : Nat)
    (h : (Recording.TrackErrors equal M C).1 = .ok (some (.position k))) :
    C.length ≤ M.length ∧
    (∃ m s, M[k]? = some m ∧ C[k]? = some s ∧ mismatch equal m s = true) ∧
    (∀ i, i < k → ∀ m s, M[i]? = some m → C[i]? = some s → mismatch equal m s = false) := by
  rcases TrackErrors_spec equal M C with ⟨_, h1⟩ | ⟨hle, n, _, hlow, _, hres⟩
  · rw [h1] at h; cases h
  · rcases hres with ⟨_, h2⟩ | ⟨_, h2, h3⟩
    · rw [h2] at h; cases h
    · rw [h2] at h
      have hnk : n = k := by injection h with h; injection h with h; injection h
      subst hnk
      exact ⟨hle, h3, fun i hi m s hm hs => (hlow i hi m s hm hs).1⟩

/-- Whatever `TrackErrors` returns, an entry of the master keeps its function
name and call site, and an error it holds is not replaced by `nil`. -/
theorem TrackErrors_entry (equal : Option Call → Option Call → Bool) (M C : Recording)
    (i : Nat) (m : site) (hm : M[i]? = some m) :
    ∃ m1, (Recording.TrackErrors equal M C).2[i]? = some m1 ∧ m1.fn = m.fn ∧
      m1.call = m.call ∧ (m.err ≠ none → m1.err ≠ none) := by
  rcases TrackErrors_spec equal M C with ⟨_, h1⟩ | ⟨_, n, hn, hlow, hhigh, _⟩
  · rw [h1]; exact ⟨m, hm, rfl, rfl, id⟩
  · rcases Nat.lt_or_ge i n with h | h
    · have hi : i < C.length := by omega
      have hs : C[i]? = some (C[i]) := List.getElem?_eq_getElem hi
      exact ⟨mergeErr m (C[i]), (hlow i h m _ hm hs).2, mergeErr_fn _ _, mergeErr_call _ _,
        mergeErr_err_ne_none _ _⟩
    · exact ⟨m, by rw [hhigh i h]; exact hm, rfl, rfl, id⟩

/-- Whatever `TrackErrors` returns, the function names and call sites of the
master are those it had before the call. -/
theorem TrackErrors_frame (equal : Option Call → Option Call → Bool) (M C : Recording)
    (i : Nat) :
    ((Recording.TrackErrors equal M C).2[i]?).map site.fn = (M[i]?).map site.fn ∧
    ((Recording.TrackErrors equal M C).2[i]?).map site.call = (M[i]?).map site.call := by
  cases hm : M[i]? with
  | none =>
    have hi : M.length ≤ i := List.getElem?_eq_none_iff.1 hm
    have : (Recording.TrackErrors equal M C).2[i]? = none :=
      List.getElem?_eq_none (by rw [TrackErrors_length]; exact hi)
    simp [this]
  | some m =>
    obtain ⟨m1, h1, h2, h3, _⟩ := TrackErrors_entry equal M C i m hm
    simp [h1, h2, h3]

/-- C1. For a master `M` and a candidate `C` no longer than `M` that agrees with
`M` in function name and call-site identity at every position of `C`,
`M.TrackErrors(C)` returns nil and leaves a master `M1` of the same length in
which every position `i < len(C)` holds `C[i].err` when that is non-nil and the
old `M[i].err` otherwise, every position `i >= len(C)` is unchanged, and all
function names and call-site identities are unchanged. Merging a second such
candidate `C2` afterwards also returns nil, and a position at which both `C`
and `C2` hold a non-nil error ends with the error of `C2`. -/
theorem TrackErrors_merges_candidate (equal : Option Call → Option Call → Bool)
    (M C : Recording) (hlen : C.length ≤ M.length)
    (hagree : ∀ (i : Nat) (m s : site), M[i]? = some m → C[i]? = some s →
      equal m.call s.call = true ∧ m.fn = s.fn) :
    ∃ M1, Recording.TrackErrors equal M C = (.ok none, M1) ∧
      M1.length = M.length ∧
      (∀ (i : Nat) (m s : site), M[i]? = some m → C[i]? = some s →
        (M1[i]?).map site.err = some (if s.err ≠ none then s.err else m.err)) ∧
      (∀ i, C.length ≤ i → M1[i]? = M[i]?) ∧
      (∀ i : Nat, (M1[i]?).map site.fn = (M[i]?).map site.fn ∧
        (M1[i]?).map site.call = (M[i]?).map site.call) ∧
      (∀ C2 : Recording, C2.length ≤ M.length →
        (∀ (i : Nat) (m s : site), M[i]? = some m → C2[i]? = some s →
          equal m.call s.call = true ∧ m.fn = s.fn) →
        ∃ M2, Recording.TrackErrors equal M1 C2 = (.ok none, M2) ∧
          ∀ (i : Nat) (s1 s2 : site), C[i]? = some s1 → C2[i]? = some s2 →
            s1.err ≠ none → s2.err ≠ none → (M2[i]?).map site.err = some s2.err) := by
  have hag : ∀ (i : Nat) (m s : site), M[i]? = some m → C[i]? = some s →
      mismatch equal m s = false :=
    fun i m s hm hs => (mismatch_eq_false equal m s).2 (hagree i m s hm hs)
  obtain ⟨h1, h2, h3⟩ := TrackErrors_of_agree equal M C hlen hag
  have hlen1 := TrackErrors_length equal M C
  refine ⟨(Recording.TrackErrors equal M C).2, Prod.ext h1 rfl, hlen1, ?_, h3,
    TrackErrors_frame equal M C, ?_⟩
  · intro i m s hm hs
    rw [h2 i m s hm hs, Option.map_some', mergeErr_err]
  · intro C2 hlen2 hagree2
    have hag2 : ∀ (i : Nat) (m s : site), (Recording.TrackErrors equal M C).2[i]? = some m →
        C2[i]? = some s → mismatch equal m s = false := by
      intro i m1 s hm1 hs
      have hi : i < M.length := by
        rw [← hlen1]
        rcases Nat.lt_or_ge i (Recording.TrackErrors equal M C).2.length with h | h
        · exact h
        · rw [List.getElem?_eq_none h] at hm1; cases hm1
      have hm : M[i]? = some (M[i]) := List.getElem?_eq_getElem hi
      obtain ⟨m2, e1, e2, e3, _⟩ := TrackErrors_entry equal M C i (M[i]) hm
      rw [hm1] at e1
      injection e1 with e1
      subst e1
      have := hagree2 i (M[i]) s hm hs
      rw [mismatch_eq_false, e2, e3]
      exact this
    obtain ⟨g1, g2, _⟩ := TrackErrors_of_agree equal (Recording.TrackErrors equal M C).2 C2
      (by rw [hlen1]; exact hlen2) hag2
    refine ⟨_, Prod.ext g1 rfl, ?_⟩
    intro i s1 s2 _ hs2 _ hne2
    have hi : i < (Recording.TrackErrors equal M C).2.length := by
      rw [hlen1]
      rcases Nat.lt_or_ge i C2.length with h | h
      · omega
      · rw [List.getElem?_eq_none h] at hs2; cases hs2
    rw [g2 i _ s2 (List.getElem?_eq_getElem hi) hs2, Option.map_some', mergeErr_err,
      if_pos hne2]

/-- The scenario of the spec: the recording of guards
`[true, false, true, true, true]` merges into the clean master of five checks,
fills position 1 only, and leaves `AllErrorsSeen` false. -/
theorem TrackErrors_merges_candidate_witness :
    (Recording.TrackErrors sameFrame cleanRun truefRun).2 =
      [⟨"True", errorGenAt 68, none⟩, ⟨"Truef", errorGenAt 69, some ⟨"truef error"⟩⟩,
       ⟨"Return", errorGenAt 70, none⟩, ⟨"Error", errorGenAt 71, none⟩,
       ⟨"Output", errorGenAt 72, none⟩] ∧
    Recording.AllErrorsSeen (Recording.TrackErrors sameFrame cleanRun truefRun).2 = false ∧
    ∃ M1, Recording.TrackErrors sameFrame cleanRun truefRun = (.ok none, M1) ∧
      M1.length = cleanRun.length ∧
      (∀ (i : Nat) (m s : site), cleanRun[i]? = some m → truefRun[i]? = some s →
        (M1[i]?).map site.err = some (if s.err ≠ none then s.err else m.err)) ∧
      (∀ i, truefRun.length ≤ i → M1[i]? = cleanRun[i]?) ∧
      (∀ i : Nat, (M1[i]?).map site.fn = (cleanRun[i]?).map site.fn ∧
        (M1[i]?).map site.call = (cleanRun[i]?).map site.call) ∧
      (∀ C2 : Recording, C2.length ≤ cleanRun.length →
        (∀ (i : Nat) (m s : site), cleanRun[i]? = some m → C2[i]? = some s →
          sameFrame m.call s.call = true ∧ m.fn = s.fn) →
        ∃ M2, Recording.TrackErrors sameFrame M1 C2 = (.ok none, M2) ∧
          ∀ (i : Nat) (s1 s2 : site), truefRun[i]? = some s1 → C2[i]? = some s2 →
            s1.err ≠ none → s2.err ≠ none → (M2[i]?).map site.err = some s2.err) :=
  ⟨rfl, rfl, TrackErrors_merges_candidate sameFrame cleanRun truefRun (by decide) (by
    intro i m s hm hs
    rcases i with _ | _ | i
    · simp [cleanRun, truefRun] at hm hs
      subst hm; subst hs
      decide
    · simp [cleanRun, truefRun] at hm hs
      subst hm; subst hs
      decide
    · simp [truefRun] at hs)⟩

/-- C2. For a master `M` and a candidate `C` no longer than `M`: when `k` is
the first index at which the two differ in function name or in call-site
identity, `TrackErrors` returns the non-nil position error of index `k`, whose
text is "recording number k doesn't match master", and so does it for every
master `M2` and candidate `C2` (no longer than `M2`) that have the same entries
as `M` and `C` up to and including `k`, whatever their later entries; when
there is no such index, `M.TrackErrors(C)` returns nil. -/
theorem TrackErrors_first_mismatch (equal : Option Call → Option Call → Bool)
    (M C : Recording) (hlen : C.length ≤ M.length) :
    (∀ (k : Nat) (mk sk : site), M[k]? = some mk → C[k]? = some sk →
      (equal mk.call sk.call = false ∨ mk.fn ≠ sk.fn) →
      (∀ (i : Nat) (m s : site), i < k → M[i]? = some m → C[i]? = some s →
        equal m.call s.call = true ∧ m.fn = s.fn) →
      (TrackError.position k).Error =
        "recording number " ++ toString k ++ " doesn't match master" ∧
      ∀ M2 C2 : Recording, C2.length ≤ M2.length →
        M2.take (k + 1) = M.take (k + 1) → C2.take (k + 1) = C.take (k + 1) →
        (Recording.TrackErrors equal M2 C2).1 = .ok (some (.position k))) ∧
    ((∀ (i : Nat) (m s : site), M[i]? = some m → C[i]? = some s →
        equal m.call s.call = true ∧ m.fn = s.fn) →
      (Recording.TrackErrors equal M C).1 = .ok none) := by
  constructor
  · intro k mk sk hmk hsk hdiff hbefore
    refine ⟨rfl, ?_⟩
    intro M2 C2 hlen2 hM hC
    have hget : ∀ (L L2 : Recording), L2.take (k + 1) = L.take (k + 1) →
        ∀ i, i ≤ k → L2[i]? = L[i]? := by
      intro L L2 h i hi
      have hik : i < k + 1 := by omega
      have h1 : (L2.take (k + 1))[i]? = L2[i]? := by rw [List.getElem?_take, if_pos hik]
      have h2 : (L.take (k + 1))[i]? = L[i]? := by rw [List.getElem?_take, if_pos hik]
      rw [← h1, ← h2, h]
    refine (TrackErrors_of_first_mismatch equal M2 C2 k mk sk hlen2
      (by rw [hget M M2 hM k (le_refl k)]; exact hmk)
      (by rw [hget C C2 hC k (le_refl k)]; exact hsk)
      ((mismatch_eq_true equal mk sk).2 hdiff) ?_).1
    intro i hi m s hm hs
    rw [hget M M2 hM i (by omega)] at hm
    rw [hget C C2 hC i (by omega)] at hs
    exact (mismatch_eq_false equal m s).2 (hbefore i m s hi hm hs)
  · intro hagree
    exact (TrackErrors_of_agree equal M C hlen
      (fun i m s hm hs => (mismatch_eq_false equal m s).2 (hagree i m s hm hs))).1

/-- The edge case of `TestTrackErrors`, `allClean.TrackErrors(allClean[2:])`:
the first entries already differ, and the position error names index 0. -/
theorem TrackErrors_first_mismatch_witness :
    (Recording.TrackErrors sameFrame cleanRun (cleanRun.drop 2)).1 =
      .ok (some (.position 0)) :=
  ((TrackErrors_first_mismatch sameFrame cleanRun (cleanRun.drop 2) (by decide)).1 0
    ⟨"True", errorGenAt 68, none⟩ ⟨"Return", errorGenAt 70, none⟩ rfl rfl
    (Or.inl (by decide)) (fun i m s hi => absurd hi (Nat.not_lt_zero i))).2
    cleanRun (cleanRun.drop 2) (by decide) rfl rfl

/-- C3. For a candidate `C` longer than the master `M`, `M.TrackErrors(C)`
returns the non-nil length error, whose text begins "error recording has", and
leaves `M` as it was; the outcome is the same whatever the comparison of call
sites and whatever the entries of the candidate, so no position is compared or
indexed. -/
theorem TrackErrors_longer_candidate (equal : Option Call → Option Call → Bool)
    (M C : Recording) (hlen : C.length > M.length) :
    Recording.TrackErrors equal M C = (.ok (some (.length C.length M.length)), M) ∧
    (∃ rest, (TrackError.length C.length M.length).Error = "error recording has" ++ rest) ∧
    (∀ (equal2 : Option Call → Option Call → Bool) (C2 : Recording),
      C2.length = C.length →
      Recording.TrackErrors equal2 M C2 = Recording.TrackErrors equal M C) := by
  have h : ∀ (eq2 : Option Call → Option Call → Bool) (C2 : Recording),
      C2.length = C.length →
      Recording.TrackErrors eq2 M C2 = (.ok (some (.length C.length M.length)), M) := by
    intro eq2 C2 h2
    simp [Recording.TrackErrors, h2, hlen]
  refine ⟨h equal C rfl, ?_, fun eq2 C2 h2 => by rw [h eq2 C2 h2, h equal C rfl]⟩
  refine ⟨" " ++ toString C.length ++ " entries while master has " ++ toString M.length, ?_⟩
  simp [TrackError.Error, String.append_assoc]
  rfl

/-- The edge case of `TestTrackErrors`, `one.TrackErrors(allClean)`. -/
theorem TrackErrors_longer_candidate_witness :
    Recording.TrackErrors sameFrame trueRun cleanRun =
      (.ok (some (.length 5 1)), trueRun) :=
  (TrackErrors_longer_candidate sameFrame trueRun cleanRun (by decide)).1

theorem mergeErr_eq (m s : site) :
    mergeErr m s = { m with err := if s.err ≠ none then s.err else m.err } := by
  unfold mergeErr; split <;> rfl

/-- C4, as stated, fails: the candidate `otherRun` agrees with the clean master
at position 0, where it holds an error, and differs at position 1; the call
returns the position error of index 1 and the master is no longer what it was,
its position 0 now holding the error of the candidate. -/
theorem TrackErrors_mismatch_keeps_master_counterexample :
    (Recording.TrackErrors sameFrame cleanRun otherRun).1 = .ok (some (.position 1)) ∧
    (Recording.TrackErrors sameFrame cleanRun otherRun).2 ≠ cleanRun ∧
    ((Recording.TrackErrors sameFrame cleanRun otherRun).2[0]?).map site.err =
      some (some ⟨"true error"⟩) :=
  ⟨rfl, by decide, rfl⟩

/-- C4, amended. When `M.TrackErrors(C)` returns the position error of index
`k`, every position of `M` from `k` on is the same after the call as before it,
every position `i < k` keeps its function name and call-site identity and holds
`C[i].err` when that is non-nil and its old error otherwise, and the length of
`M` is unchanged. -/
theorem TrackErrors_mismatch_state (equal : Option Call → Option Call → Bool)
    (M C : Recording) (k : Nat)
    (herr : (Recording.TrackErrors equal M C).1 = .ok (some (.position k))) :
    (∀ i, k ≤ i → (Recording.TrackErrors equal M C).2[i]? = M[i]?) ∧
    (∀ (i : Nat) (m s : site), i < k → M[i]? = some m → C[i]? = some s →
      (Recording.TrackErrors equal M C).2[i]? =
        some { m with err := if s.err ≠ none then s.err else m.err }) ∧
    (Recording.TrackErrors equal M C).2.length = M.length := by
  obtain ⟨hlen, ⟨mk, sk, hmk, hsk, hmis⟩, hbefore⟩ := TrackErrors_position_inv equal M C k herr
  obtain ⟨_, h2, h3⟩ :=
    TrackErrors_of_first_mismatch equal M C k mk sk hlen hmk hsk hmis hbefore
  refine ⟨h3, ?_, TrackErrors_length equal M C⟩
  intro i m s hi hm hs
  rw [h2 i hi m s hm hs, mergeErr_eq]

/-- The candidate `otherRun` against the clean master: position 1, where the
two differ, is untouched by the failed call, and position 0 holds the error of
the candidate. -/
theorem TrackErrors_mismatch_state_witness :
    (Recording.TrackErrors sameFrame cleanRun otherRun).2[1]? = cleanRun[1]? ∧
    (Recording.TrackErrors sameFrame cleanRun otherRun).2[0]? =
      some ⟨"True", errorGenAt 68, some ⟨"true error"⟩⟩ :=
  ⟨(TrackErrors_mismatch_state sameFrame cleanRun otherRun 1 rfl).1 1 (le_refl 1),
   (TrackErrors_mismatch_state sameFrame cleanRun otherRun 1 rfl).2.1 0 _ _
     (by decide) rfl rfl⟩

theorem trackLoopSelf_refl (equal : Option Call → Option Call → Bool) (R : List site) :
    ∀ i : Nat, (∀ s ∈ R, equal s.call s.call = true) →
      trackLoopSelf equal i R = (.ok none, R) := by
  induction R with
  | nil => intro i _; rfl
  | cons m R ih =>
    intro i h
    have hm : mismatch equal m m = false :=
      (mismatch_eq_false equal m m).2 ⟨h m (List.mem_cons_self m R), rfl⟩
    have hR := ih (i + 1) (fun s hs => h s (List.mem_cons_of_mem m hs))
    simp [trackLoopSelf, hm, hR, mergeErr_self]

/-- C5. For every recording `R` whose call sites the external `Equal` holds
equal to themselves, `R.TrackErrors(R)` returns nil and leaves every entry of
`R`, its error included, as it was: both when the candidate is a copy of `R`
and when master and candidate are the same slice. -/
theorem TrackErrors_same_recording (equal : Option Call → Option Call → Bool)
    (R : Recording) (hrefl : ∀ s ∈ R, equal s.call s.call = true) :
    Recording.TrackErrors equal R R = (.ok none, R) ∧
    Recording.TrackErrorsSelf equal R = (.ok none, R) := by
  constructor
  · have hag : ∀ (i : Nat) (m s : site), R[i]? = some m → R[i]? = some s →
        mismatch equal m s = false := by
      intro i m s hm hs
      rw [hm] at hs
      injection hs with hs
      subst hs
      exact (mismatch_eq_false equal m m).2 ⟨hrefl m (List.getElem?_mem hm), rfl⟩
    obtain ⟨h1, h2, h3⟩ := TrackErrors_of_agree equal R R (le_refl _) hag
    refine Prod.ext h1 ?_
    apply List.ext_getElem?
    intro i
    rcases Nat.lt_or_ge i R.length with h | h
    · have hi : R[i]? = some (R[i]) := List.getElem?_eq_getElem h
      rw [h2 i _ _ hi hi, mergeErr_self, hi]
    · exact h3 i h
  · simp [Recording.TrackErrorsSelf, trackLoopSelf_refl equal R 0 hrefl]

/-- The clean recording of `TestTrackErrors` merged into itself. -/
theorem TrackErrors_same_recording_witness :
    Recording.TrackErrors sameFrame cleanRun cleanRun = (.ok none, cleanRun) ∧
    Recording.TrackErrorsSelf sameFrame cleanRun = (.ok none, cleanRun) :=
  TrackErrors_same_recording sameFrame cleanRun (by decide)

/-! ## `AllErrorsSeen` -/

theorem AllErrorsSeen_iff_mem (R : Recording) :
    Recording.AllErrorsSeen R = true ↔ ∀ s ∈ R, s.err ≠ none := by
  induction R with
  | nil => simp [Recording.AllErrorsSeen]
  | cons m R ih =>
    by_cases h : m.err = none
    · simp [Recording.AllErrorsSeen, h]
    · simp [Recording.AllErrorsSeen, h, ih]

theorem AllErrorsSeen_iff_getElem? (R : Recording) :
    Recording.AllErrorsSeen R = true ↔
      ∀ (i : Nat) (s : site), R[i]? = some s → s.err ≠ none := by
  rw [AllErrorsSeen_iff_mem]
  constructor
  · intro h i s hs
    exact h s (List.getElem?_mem hs)
  · intro h s hs
    obtain ⟨i, hi⟩ := List.mem_iff_getElem?.1 hs
    exact h i s hi

/-- C6. `R.AllErrorsSeen()` is true if and only if every position of `R` holds
a non-nil error; it is true of the empty recording, and false of a recording
one of whose positions holds nil. -/
theorem AllErrorsSeen_iff (R : Recording) :
    (Recording.AllErrorsSeen R = true ↔
      ∀ (i : Nat) (s : site), R[i]? = some s → s.err ≠ none) ∧
    Recording.AllErrorsSeen [] = true ∧
    (∀ (i : Nat) (s : site), R[i]? = some s → s.err = none →
      Recording.AllErrorsSeen R = false) := by
  refine ⟨AllErrorsSeen_iff_getElem? R, rfl, ?_⟩
  intro i s hs hnil
  cases h : Recording.AllErrorsSeen R with
  | false => rfl
  | true => exact absurd hnil ((AllErrorsSeen_iff_getElem? R).1 h i s hs)

/-! ## Coverage over a sequence of merges -/

/-- A call that returns nil had a candidate no longer than the master, and
merged it whole. -/
theorem TrackErrors_ok_inv (equal : Option Call → Option Call → Bool) (M C : Recording)
    (h : (Recording.TrackErrors equal M C).1 = .ok none) :
    C.length ≤ M.length ∧
    (∀ (i : Nat) (m s : site), M[i]? = some m → C[i]? = some s →
      (Recording.TrackErrors equal M C).2[i]? = some (mergeErr m s)) ∧
    (∀ i, C.length ≤ i → (Recording.TrackErrors equal M C).2[i]? = M[i]?) := by
  rcases TrackErrors_spec equal M C with ⟨_, h1⟩ | ⟨hle, n, _, hlow, hhigh, hres⟩
  · rw [h1] at h; cases h
  · rcases hres with ⟨h1, _⟩ | ⟨_, h2, _⟩
    · subst h1
      refine ⟨hle, ?_, hhigh⟩
      intro i m s hm hs
      have hi : i < C.length := by
        rcases Nat.lt_or_ge i C.length with h | h
        · exact h
        · rw [List.getElem?_eq_none h] at hs; cases hs
      exact (hlow i hi m s hm hs).2
    · rw [h2] at h; cases h

theorem trackAll_length (equal : Option Call → Option Call → Bool) (Cs : List Recording) :
    ∀ M : Recording, (trackAll equal M Cs).2.length = M.length := by
  induction Cs with
  | nil => intro M; rfl
  | cons C Cs ih =>
    intro M
    simp only [trackAll]
    rw [ih, TrackErrors_length]

/-- After merges that all return nil, a position of the master holds an error
exactly when it held one before or one of the candidates holds one there. -/
theorem trackAll_entry (equal : Option Call → Option Call → Bool) (Cs : List Recording) :
    ∀ M : Recording, (∀ res ∈ (trackAll equal M Cs).1, res = .ok none) →
      ∀ (i : Nat) (m : site), M[i]? = some m →
        ∃ m1, (trackAll equal M Cs).2[i]? = some m1 ∧
          (m1.err ≠ none ↔
            m.err ≠ none ∨ ∃ C ∈ Cs, ∃ s : site, C[i]? = some s ∧ s.err ≠ none) := by
  induction Cs with
  | nil =>
    intro M _ i m hm
    exact ⟨m, hm, by simp⟩
  | cons C Cs ih =>
    intro M hok i m hm
    have hstep : (Recording.TrackErrors equal M C).1 = .ok none :=
      hok _ (by simp [trackAll])
    have hrest : ∀ res ∈ (trackAll equal (Recording.TrackErrors equal M C).2 Cs).1,
        res = .ok none :=
      fun res hres => hok res (by simp [trackAll, hres])
    obtain ⟨_, hlow, hhigh⟩ := TrackErrors_ok_inv equal M C hstep
    cases hs : C[i]? with
    | none =>
      have hi : C.length ≤ i := List.getElem?_eq_none_iff.1 hs
      obtain ⟨m1, e1, e2⟩ := ih _ hrest i m (by rw [hhigh i hi]; exact hm)
      refine ⟨m1, by simpa [trackAll] using e1, ?_⟩
      rw [e2]
      simp [hs]
    | some s =>
      obtain ⟨m1, e1, e2⟩ := ih _ hrest i (mergeErr m s) (hlow i m s hm hs)
      refine ⟨m1, by simpa [trackAll] using e1, ?_⟩
      rw [e2, mergeErr_err]
      by_cases hne : s.err = none
      · simp [hs, hne]
      · simp [hs, hne]

/-- C7. Starting from a master `M` whose errors are all nil, after the calls
`M.TrackErrors(C1)`, ..., `M.TrackErrors(Cn)`, all of which return nil,
`M.AllErrorsSeen()` is true if and only if every position `i` of `M` is a
position of some `Cj` that holds a non-nil error. (The sequence is any list of
candidates, so the statement holds after every merge of a longer sequence:
false while a position has received no error, true from the merge that gives
the last one its error.) -/
theorem AllErrorsSeen_after_merges (equal : Option Call → Option Call → Bool)
    (M : Recording) (Cs : List Recording)
    (hclean : ∀ s ∈ M, s.err = none)
    (hok : ∀ res ∈ (trackAll equal M Cs).1, res = .ok none) :
    Recording.AllErrorsSeen (trackAll equal M Cs).2 = true ↔
      ∀ i : Nat, i < M.length →
        ∃ C ∈ Cs, ∃ s : site, C[i]? = some s ∧ s.err ≠ none := by
  rw [AllErrorsSeen_iff_getElem?]
  constructor
  · intro h i hi
    have hm : M[i]? = some (M[i]) := List.getElem?_eq_getElem hi
    obtain ⟨m1, e1, e2⟩ := trackAll_entry equal Cs M hok i _ hm
    rcases e2.1 (h i m1 e1) with h0 | h0
    · exact absurd (hclean _ (List.getElem?_mem hm)) h0
    · exact h0
  · intro h i s hs
    have hi : i < M.length := by
      rw [← trackAll_length equal Cs M]
      rcases Nat.lt_or_ge i (trackAll equal M Cs).2.length with h1 | h1
      · exact h1
      · rw [List.getElem?_eq_none h1] at hs; cases hs
    have hm : M[i]? = some (M[i]) := List.getElem?_eq_getElem hi
    obtain ⟨m1, e1, e2⟩ := trackAll_entry equal Cs M hok i _ hm
    rw [hs] at e1
    injection e1 with e1
    subst e1
    exact e2.2 (Or.inr (h i hi))

/-- A master of two checks and the two runs that fail them in turn: all errors
are seen after the second merge. -/
theorem AllErrorsSeen_after_merges_witness :
    Recording.AllErrorsSeen
      (trackAll sameFrame (cleanRun.take 2) [trueRun, truefRun]).2 = true :=
  (AllErrorsSeen_after_merges sameFrame (cleanRun.take 2) [trueRun, truefRun]
    (by decide) (by
      intro res hres
      simp [trackAll] at hres
      rcases hres with h | h
      · rw [h]; rfl
      · rw [h]; rfl)).2 (by
    intro i hi
    rcases i with _ | _ | i
    · exact ⟨trueRun, by simp, _, rfl, by decide⟩
    · exact ⟨truefRun, by simp, _, rfl, by decide⟩
    · simp [cleanRun] at hi
      omega)

/-- C8. Whatever `M.TrackErrors(C)` returns, a position of `M` that holds a
non-nil error before the call holds a non-nil error after it; hence when
`M.AllErrorsSeen()` is true before a call, or before any sequence of calls, it
is true after. -/
theorem TrackErrors_keeps_errors (equal : Option Call → Option Call → Bool)
    (M C : Recording) :
    (∀ (i : Nat) (m : site), M[i]? = some m → m.err ≠ none →
      ∃ m1, (Recording.TrackErrors equal M C).2[i]? = some m1 ∧ m1.err ≠ none) ∧
    (Recording.AllErrorsSeen M = true →
      Recording.AllErrorsSeen (Recording.TrackErrors equal M C).2 = true) ∧
    (∀ Cs : List Recording, Recording.AllErrorsSeen M = true →
      Recording.AllErrorsSeen (trackAll equal M Cs).2 = true) := by
  have hentry : ∀ (M C : Recording) (i : Nat) (m : site), M[i]? = some m → m.err ≠ none →
      ∃ m1, (Recording.TrackErrors equal M C).2[i]? = some m1 ∧ m1.err ≠ none := by
    intro M C i m hm hne
    obtain ⟨m1, h1, _, _, h4⟩ := TrackErrors_entry equal M C i m hm
    exact ⟨m1, h1, h4 hne⟩
  have hall : ∀ M C : Recording, Recording.AllErrorsSeen M = true →
      Recording.AllErrorsSeen (Recording.TrackErrors equal M C).2 = true := by
    intro M C h
    rw [AllErrorsSeen_iff_getElem?] at h ⊢
    intro i s hs
    have hi : i < M.length := by
      rw [← TrackErrors_length equal M C]
      rcases Nat.lt_or_ge i (Recording.TrackErrors equal M C).2.length with h1 | h1
      · exact h1
      · rw [List.getElem?_eq_none h1] at hs; cases hs
    have hm : M[i]? = some (M[i]) := List.getElem?_eq_getElem hi
    obtain ⟨m1, h1, h2⟩ := hentry M C i _ hm (h i _ hm)
    rw [hs] at h1
    injection h1 with h1
    subst h1
    exact h2
  refine ⟨hentry M C, hall M C, ?_⟩
  intro Cs
  induction Cs generalizing M with
  | nil => intro h; exact h
  | cons C1 Cs ih =>
    intro h
    simp only [trackAll]
    exact ih _ (hall M C1 h)

/-! ## `ErrorMatches` -/

/-- The cases in which `ErrorMatches` returns false without compiling the
pattern: an index at or beyond the length, and an index in range whose
position holds a nil error. -/
theorem ErrorMatches_false (matchString : String → String → Option Bool)
    (R : Recording) (idx : Int) (pat : String) :
    ((R.length : Int) ≤ idx → Recording.ErrorMatches matchString R idx pat = .ok false) ∧
    (∀ s : site, 0 ≤ idx → R[idx.toNat]? = some s → s.err = none →
      Recording.ErrorMatches matchString R idx pat = .ok false) := by
  constructor
  · intro h
    simp [Recording.ErrorMatches, h]
  · intro s h0 hs hnil
    have hlt : idx.toNat < R.length := by
      rcases Nat.lt_or_ge idx.toNat R.length with h | h
      · exact h
      · rw [List.getElem?_eq_none h] at hs; cases hs
    have h1 : ¬ (R.length : Int) ≤ idx := by omega
    have h2 : ¬ idx < 0 := by omega
    simp [Recording.ErrorMatches, index, h1, h2, hs, hnil]

/-- C9, at the indexes where the code departs from it. For a negative index
the guard `index >= len(r)` of `ErrorMatches` does not hold, and the function
goes on to `r[index]`, which panics: it does not return false. -/
theorem ErrorMatches_negative_index (matchString : String → String → Option Bool)
    (R : Recording) (idx : Int) (pat : String) (hneg : idx < 0) :
    Recording.ErrorMatches matchString R idx pat = .error .indexOutOfRange := by
  have h1 : ¬ (R.length : Int) ≤ idx := by omega
  simp [Recording.ErrorMatches, index, h1, hneg]

/-- The recording `one` of `TestTrackErrors` asked for index -1. -/
theorem ErrorMatches_negative_index_witness :
    Recording.ErrorMatches (fun _ _ => some true) trueRun (-1) "true error" =
      .error .indexOutOfRange :=
  ErrorMatches_negative_index (fun _ _ => some true) trueRun (-1) "true error" (by decide)

/-! ## The fault injector -/

/-- C10. Consuming at index `i`: `fail` returns the error of the pending fault
when a fault is pending and `i` is its target index, and nil in every other
case, that of no pending fault included; `failNow` consumes at the index of
the last recorded site, `len(sites) - 1`. -/
theorem fail_returns_pending (f : Option failure) (i : Int) :
    (∀ p : failure, f = some p → p.index = i → failure.fail f i = p.err) ∧
    (∀ p : failure, f = some p → p.index ≠ i → failure.fail f i = none) ∧
    (f = none → failure.fail f i = none) ∧
    (∀ (χ σ : Type) (t : TestChecker χ σ), t.fail = f →
      (t.recorder.sites.length : Int) - 1 = i → t.failNow = failure.fail f i) := by
  refine ⟨?_, ?_, ?_, ?_⟩
  · intro p hp hi
    subst hp
    simp [failure.fail, hi]
  · intro p hp hi
    subst hp
    simp [failure.fail, hi]
  · intro hf
    subst hf
    rfl
  · intro χ σ t ht hi
    simp [TestChecker.failNow, recorder.last, ht, hi]

/-! ## Call-site resolution in `record()` -/

theorem HasPrefix_append (pre name : String) : HasPrefix (pre ++ name) pre = true := by
  simp [HasPrefix]

theorem TrimPrefix_append (pre name : String) : TrimPrefix (pre ++ name) pre = name := by
  simp [TrimPrefix, HasPrefix_append]

/-- The loop stops at the first frame whose name has the prefix. -/
theorem callIndex_eq_some (pre : String) (stack : List Call) :
    ∀ (j : Nat) (f : Call), stack[j]? = some f → HasPrefix f.Name pre = true →
      (∀ (i : Nat) (g : Call), i < j → stack[i]? = some g → HasPrefix g.Name pre = false) →
      callIndex pre stack = some j := by
  induction stack with
  | nil => intro j f hf; simp at hf
  | cons c stack ih =>
    intro j f hf hpre hfirst
    cases j with
    | zero =>
      simp at hf
      subst hf
      simp [callIndex, hpre]
    | succ j =>
      have hc : HasPrefix c.Name pre = false := hfirst 0 c (Nat.succ_pos j) (by simp)
      have hrest := ih j f (by simpa using hf) hpre
        (fun i g hi hg => hfirst (i + 1) g (by omega) (by simpa using hg))
      simp [callIndex, hc, hrest]

/-- The loop leaves `-1` when no frame has the prefix. -/
theorem callIndex_eq_none (pre : String) (stack : List Call)
    (h : ∀ g ∈ stack, HasPrefix g.Name pre = false) : callIndex pre stack = none := by
  induction stack with
  | nil => rfl
  | cons c stack ih =>
    have hc : HasPrefix c.Name pre = false := h c (List.mem_cons_self c stack)
    have hrest := ih (fun g hg => h g (List.mem_cons_of_mem c hg))
    simp [callIndex, hc, hrest]

/-- C19. Call-site resolution in `record()`, the stack being the list of frames
from the most recent outward. When `j` is the first index whose frame name
starts with the reserved prefix and a frame `j + 1` exists, the appended site
has the frame `j + 1` as its call-site identity and the name of frame `j`
without the prefix as its function name (`name` when the frame is named the
prefix followed by `name`), and a nil error. When no frame has the prefix, or
the first frame that has it is the outermost one, the appended site is the
zero record. In every case `record()` returns. -/
theorem record_resolves_call_site (pre : String) (stack : List Call) (r : recorder) :
    (∀ (j : Nat) (f c : Call), stack[j]? = some f → HasPrefix f.Name pre = true →
      (∀ (i : Nat) (g : Call), i < j → stack[i]? = some g → HasPrefix g.Name pre = false) →
      stack[j + 1]? = some c →
      (r.record pre stack).sites =
          r.sites ++ [{ fn := TrimPrefix f.Name pre, call := some c, err := none }] ∧
        ∀ name : String, f.Name = pre ++ name → TrimPrefix f.Name pre = name) ∧
    ((∀ g ∈ stack, HasPrefix g.Name pre = false) →
      (r.record pre stack).sites = r.sites ++ [{ fn := "", call := none, err := none }]) ∧
    (∀ (j : Nat) (f : Call), stack[j]? = some f → HasPrefix f.Name pre = true →
      (∀ (i : Nat) (g : Call), i < j → stack[i]? = some g → HasPrefix g.Name pre = false) →
      j + 1 = stack.length →
      (r.record pre stack).sites = r.sites ++ [{ fn := "", call := none, err := none }]) := by
  refine ⟨?_, ?_, ?_⟩
  · intro j f c hf hpre hfirst hc
    have hidx := callIndex_eq_some pre stack j f hf hpre hfirst
    have hlen : j + 1 < stack.length := by
      rcases Nat.lt_or_ge (j + 1) stack.length with h | h
      · exact h
      · rw [List.getElem?_eq_none h] at hc; cases hc
    refine ⟨?_, ?_⟩
    · simp [recorder.record, hidx, hlen, hf, hc]
    · intro name hname
      rw [hname, TrimPrefix_append]
  · intro hnone
    simp [recorder.record, callIndex_eq_none pre stack hnone]
  · intro j f hf hpre hfirst hlast
    have hidx := callIndex_eq_some pre stack j f hf hpre hfirst
    have hlen : ¬ j + 1 < stack.length := by omega
    simp [recorder.record, hidx, hlen]

/-- The stack of the check `True` of `errorGen` in the examples: frame 1 is the
first with the prefix, frame 2 the caller. -/
theorem record_errorGen_example :
    (newRecorder.record examplePre errorGenStacks.sTrue).sites =
      [{ fn := "True", call := errorGenAt 68, err := none }] := by
  decide

/-- What `record()` appends when the operation `name` is called in a valid
context: the operation and its caller. -/
theorem record_stackOf (pre name : String) (cs : CallSite) (hcs : cs.Valid pre)
    (r : recorder) :
    r.record pre (stackOf pre name cs) =
      { sites := r.sites ++ [{ fn := name, call := some cs.caller, err := none }] } := by
  have h := (record_resolves_call_site pre (stackOf pre name cs) r).1 cs.inner.length
    { Name := pre ++ name, frame := cs.frame } cs.caller
    (by rw [stackOf, List.getElem?_append_right (le_refl _)]; simp)
    (HasPrefix_append pre name)
    (by
      intro i g hi hg
      have hg2 : cs.inner[i]? = some g := by
        rw [stackOf, List.getElem?_append_left hi] at hg
        exact hg
      exact hcs g (List.getElem?_mem hg2))
    (by
      have hk : cs.inner.length + 1 - cs.inner.length = 1 := by omega
      rw [stackOf, List.getElem?_append_right (by omega), hk]
      simp)
  have hsites := h.1
  rw [TrimPrefix_append] at hsites
  cases hrec : r.record pre (stackOf pre name cs) with
  | mk sites =>
    rw [hrec] at hsites
    simp only at hsites
    rw [hsites]

/-! ## The recording is append-only -/

theorem record_sites (pre : String) (stack : List Call) (r : recorder) :
    ∃ s : site, (r.record pre stack).sites = r.sites ++ [s] ∧ s.err = none := by
  unfold recorder.record
  refine ⟨_, rfl, ?_⟩
  dsimp only
  split
  · rfl
  · split
    · split <;> rfl
    · rfl

theorem record_length (pre : String) (stack : List Call) (r : recorder) :
    (r.record pre stack).sites.length = r.sites.length + 1 := by
  obtain ⟨s, hs, _⟩ := record_sites pre stack r
  rw [hs]
  simp

theorem record_last (pre : String) (stack : List Call) (r : recorder) :
    (r.record pre stack).last = (r.sites.length : Int) := by
  simp [recorder.last, record_length]

theorem modify_last (f : site → site) (s : site) (init : List site) :
    (init ++ [s]).modify f init.length = init ++ [f s] := by
  induction init with
  | nil => rfl
  | cons a init ih => simp [ih]

/-- C20. Every call of `record()` makes the recording one site longer, leaves
the sites recorded before as they were, appends a site whose error is nil, and
afterwards `last()` is `len(sites) - 1`, the index of the site just appended.
`trackError(err)` changes the error of the last site only, and changes nothing
when the recording is empty. -/
theorem record_appends_one_site (pre : String) (stack : List Call) (r : recorder)
    (err : Option GoError) :
    (∃ s : site, (r.record pre stack).sites = r.sites ++ [s] ∧ s.err = none) ∧
    (r.record pre stack).sites.length = r.sites.length + 1 ∧
    (∀ i : Nat, i < r.sites.length → (r.record pre stack).sites[i]? = r.sites[i]?) ∧
    (r.record pre stack).last = ((r.record pre stack).sites.length : Int) - 1 ∧
    (r.record pre stack).last = (r.sites.length : Int) ∧
    (r.sites = [] → r.trackError err = r) ∧
    (∀ (init : List site) (s : site), r.sites = init ++ [s] →
      (r.trackError err).sites = init ++ [{ s with err := err }]) := by
  refine ⟨record_sites pre stack r, record_length pre stack r, ?_, rfl,
    record_last pre stack r, ?_, ?_⟩
  · intro i hi
    obtain ⟨s, hs, _⟩ := record_sites pre stack r
    rw [hs, List.getElem?_append_left hi]
  · intro hnil
    simp [recorder.trackError, hnil]
  · intro init s hr
    have hk : init.length + 1 - 1 = init.length := by omega
    simp [recorder.trackError, hr, hk, modify_last]

/-! ## Arming and disarming -/

/-- C11. `FailAt` replaces the fault armed before: after `FailAt(i1, e1)` and
then `FailAt(i2, e2)` with `i1 != i2`, consuming at `i1` returns nil and
consuming at `i2` returns `e2`. After `ResetFailures`, consuming returns nil at
every index. -/
theorem FailAt_replaces {χ σ : Type} (t : TestChecker χ σ) :
    (∀ (i1 i2 : Int) (e1 e2 : Option GoError), i1 ≠ i2 →
      failure.fail ((t.FailAt i1 e1).FailAt i2 e2).fail i1 = none ∧
      failure.fail ((t.FailAt i1 e1).FailAt i2 e2).fail i2 = e2) ∧
    (∀ i : Int, failure.fail t.ResetFailures.fail i = none) ∧
    (∀ (i1 i : Int) (e1 : Option GoError),
      failure.fail (t.FailAt i1 e1).ResetFailures.fail i = none) := by
  refine ⟨?_, ?_, ?_⟩
  · intro i1 i2 e1 e2 hne
    have h : ¬ i2 = i1 := fun h => hne h.symm
    simp [TestChecker.FailAt, failure.fail, h]
  · intro i
    rfl
  · intro i1 i e1
    rfl

/-! ## What the decorator hands to the wrapped checker -/

theorem failNow_after_record {χ σ : Type} (pre : String) (stack : List Call)
    (t : TestChecker χ σ) :
    TestChecker.failNow { t with recorder := t.recorder.record pre stack } =
      failure.fail t.fail (t.recorder.sites.length : Int) := by
  simp [TestChecker.failNow, record_last]

/-- C13. For `Return`, `Error`, `Output` and `Failure` performed as the check
at position `i` (the recording holds `i` sites before the call) with the
organic error `F`: the error handed to the wrapped checker is `F` when `F` is
non-nil, whatever is armed; it is `E` when `F` is nil and a fault with the
non-nil error `E` is armed at `i`; it is nil when `F` is nil and no fault is
armed at `i`. The value handed on with it is the one received. -/
theorem injection_keeps_organic_error {χ σ ι : Type} (pre : String) (stack : List Call)
    (t : TestChecker χ σ) (v : ι) (F : Option GoError) (i : Int)
    (hi : (t.recorder.sites.length : Int) = i) :
    (∀ d ∈ [(t.Return pre stack v F).2.2, (t.Error pre stack F).2,
        (t.Output pre stack v F).2.2, (t.Failure pre stack F).2],
      (F ≠ none → d = F) ∧
      (∀ E : GoError, F = none → t.fail = some ⟨i, some E⟩ → d = some E) ∧
      (F = none → (∀ p : failure, t.fail = some p → p.index ≠ i) → d = none)) ∧
    (t.Return pre stack v F).2.1 = v ∧ (t.Output pre stack v F).2.1 = v := by
  have key : ∀ d : Option GoError,
      d = (if failure.fail t.fail i ≠ none ∧ F = none then failure.fail t.fail i else F) →
      (F ≠ none → d = F) ∧
      (∀ E : GoError, F = none → t.fail = some ⟨i, some E⟩ → d = some E) ∧
      (F = none → (∀ p : failure, t.fail = some p → p.index ≠ i) → d = none) := by
    intro d hd
    refine ⟨?_, ?_, ?_⟩
    · intro hF
      rw [hd, if_neg (fun h => hF h.2)]
    · intro E hF hfail
      rw [hd, hfail, hF]
      simp [failure.fail]
    · intro hF hno
      have hnone : failure.fail t.fail i = none := by
        cases hf : t.fail with
        | none => rfl
        | some p => simp [failure.fail, hno p hf]
      rw [hd, hnone, hF]
      simp
  refine ⟨?_, rfl, rfl⟩
  intro d hd
  apply key
  simp only [List.mem_cons, List.mem_singleton, List.not_mem_nil, or_false] at hd
  rcases hd with h | h | h | h <;> rw [h]
  · simp only [TestChecker.Return, failNow_after_record, hi]
  · simp only [TestChecker.Error, failNow_after_record, hi]
  · simp only [TestChecker.Output, failNow_after_record, hi]
  · simp only [TestChecker.Failure, failNow_after_record, hi]

/-- A fault armed at 0 and `Return` as the first check of a recording: the
injected error is handed on when the organic error is nil. -/
theorem injection_keeps_organic_error_witness :
    ((exampleTester.FailAt 0 (some ⟨"some error"⟩)).Return examplePre
        errorGenStacks.sTrue (0 : Int) none).2.2 = some ⟨"some error"⟩ :=
  ((injection_keeps_organic_error examplePre errorGenStacks.sTrue
      (exampleTester.FailAt 0 (some ⟨"some error"⟩)) (0 : Int) none 0 rfl).1 _
    (List.mem_cons_self _ _)).2.1 ⟨"some error"⟩ rfl rfl

/-- C14. For `True` and `Truef` performed as the check at position `i`: when a
fault with a non-nil error is armed at `i` the condition handed to the wrapped
checker is false whatever the organic condition, and when no fault is armed at
`i`, or the one armed at `i` has a nil error, the organic condition is handed
on unchanged; message, format and arguments are handed on as received. -/
theorem injection_forces_condition {χ σ : Type} (pre : String) (stack : List Call)
    (t : TestChecker χ σ) (cond : Bool) (msg : String) (args : List String) (i : Int)
    (hi : (t.recorder.sites.length : Int) = i) :
    (∀ E : GoError, t.fail = some ⟨i, some E⟩ →
      (t.True pre stack cond msg).2.1 = false ∧
      (t.Truef pre stack cond msg args).2.1 = false) ∧
    ((∀ p : failure, t.fail = some p → p.index ≠ i ∨ p.err = none) →
      (t.True pre stack cond msg).2.1 = cond ∧
      (t.Truef pre stack cond msg args).2.1 = cond) ∧
    (t.True pre stack cond msg).2.2 = msg ∧
    (t.Truef pre stack cond msg args).2.2 = (msg, args) := by
  have hfn : TestChecker.failNow { t with recorder := t.recorder.record pre stack } =
      failure.fail t.fail i := by
    rw [failNow_after_record, hi]
  refine ⟨?_, ?_, rfl, rfl⟩
  · intro E hfail
    have hsome : failure.fail t.fail i = some E := by
      rw [hfail]
      simp [failure.fail]
    simp only [TestChecker.True, TestChecker.Truef, hfn, hsome]
    simp
  · intro hno
    have hnone : failure.fail t.fail i = none := by
      cases hf : t.fail with
      | none => rfl
      | some p =>
        rcases hno p hf with h | h
        · simp [failure.fail, h]
        · simp [failure.fail, h]
    simp only [TestChecker.True, TestChecker.Truef, hfn, hnone]
    simp

/-- The first row of `TestSimulatedFailures`: a fault armed at 0 makes the true
guard of the first check false. -/
theorem injection_forces_condition_witness :
    ((exampleTester.FailAt 0 (some ⟨"some error"⟩)).True examplePre
        errorGenStacks.sTrue true "true error").2.1 = false :=
  ((injection_forces_condition examplePre errorGenStacks.sTrue
      (exampleTester.FailAt 0 (some ⟨"some error"⟩)) true "true error" [] 0 rfl).1
    ⟨"some error"⟩ rfl).1

/-! ## Patching and restoring -/

/-- C17. Patching is a round trip. For a slot holding the checker `c`, after
`t.Patch(&slot)` the slot holds `t` and `t` delegates to `c` (its recorder,
pending fault and sink untouched), and the returned `Reset` puts `c` back in
the slot, whatever the slot holds by then. For a prior sink `s = t.onError` and
a new sink `fn`, after `t.OnError(fn)` the sink is `fn`, and the returned
`Reset` makes it `s` again (nil when `s` was nil), giving back `t` as it was. -/
theorem Patch_round_trip {κ σ : Type} (t : TestChecker (FaultCheck κ) σ) (c : FaultCheck κ)
    (fn : Option σ) :
    ((t.Patch c).2.1 = FaultCheck.tester ∧ (t.Patch c).1.checker = c ∧
      (t.Patch c).1.recorder = t.recorder ∧ (t.Patch c).1.fail = t.fail ∧
      (t.Patch c).1.onError = t.onError ∧
      (t.Patch c).2.2.Reset (t.Patch c).2.1 = c ∧
      ∀ slot : FaultCheck κ, (t.Patch c).2.2.Reset slot = c) ∧
    ((t.OnError fn).1.onError = fn ∧
      ((t.OnError fn).2.Reset (t.OnError fn).1).onError = t.onError ∧
      (t.OnError fn).2.Reset (t.OnError fn).1 = t ∧
      (t.onError = none → ((t.OnError fn).2.Reset (t.OnError fn).1).onError = none)) := by
  refine ⟨⟨rfl, rfl, rfl, rfl, rfl, rfl, fun _ => rfl⟩, rfl, rfl, ?_, ?_⟩
  · cases t
    rfl
  · intro h
    exact h

/-! ## Starting a recording -/

/-- C18. `StartRecording` resets the recording only: afterwards the recording
is empty and `last()` is -1, while the pending fault, the wrapped checker and
the sink are what they were. So a fault armed with `FailAt` before
`StartRecording` is still armed after it, and one armed at 0 with a non-nil
error fires in the first check of the execution that follows. -/
theorem StartRecording_resets_recording {χ σ : Type} (t : TestChecker χ σ) :
    t.StartRecording.Recording = [] ∧
    t.StartRecording.recorder.last = -1 ∧
    t.StartRecording.fail = t.fail ∧
    t.StartRecording.checker = t.checker ∧
    t.StartRecording.onError = t.onError ∧
    (∀ (i : Int) (E : Option GoError),
      (t.FailAt i E).StartRecording.fail = some ⟨i, E⟩) ∧
    (∀ (pre : String) (stack : List Call) (E : GoError) (cond : Bool) (msg : String),
      ((t.FailAt 0 (some E)).StartRecording.True pre stack cond msg).2.1 = false ∧
      ((t.FailAt 0 (some E)).StartRecording.Error pre stack none).2 = some E) := by
  refine ⟨rfl, rfl, rfl, rfl, rfl, fun _ _ => rfl, ?_⟩
  intro pre stack E cond msg
  have hfn : TestChecker.failNow
      { (t.FailAt 0 (some E)).StartRecording with
        recorder := (t.FailAt 0 (some E)).StartRecording.recorder.record pre stack } =
      some E := by
    rw [failNow_after_record]
    rfl
  constructor
  · simp only [TestChecker.True, hfn]
    simp
  · simp only [TestChecker.Error, hfn]
    simp

/-! ## Executions of `errorGen` -/

theorem simpleChecker_sound : simpleChecker.Sound where
  true_pass := fun _ => rfl
  true_stop := fun _ => by simp [simpleChecker]
  truef_pass := fun _ _ => rfl
  truef_stop := fun _ _ => by simp [simpleChecker]
  return_pass := fun _ => rfl
  return_stop := fun _ _ => by simp [simpleChecker]
  error_pass := rfl
  error_stop := fun _ => by simp [simpleChecker]
  output_pass := fun _ => rfl
  output_stop := fun _ _ => by simp [simpleChecker]
  recover_none := rfl
  recover_some := fun _ => rfl

theorem errorGenSite_valid (line : Nat) : (errorGenSite line).Valid examplePre := by
  intro g hg
  simp [errorGenSite] at hg
  subst hg
  decide

/-- An execution of `errorGen` changes the recorder of the `TestChecker` only. -/
theorem errorGen_frame {σ : Type} (pre : String) (st : Stacks)
    (t : TestChecker (RealChecker Int) σ) (p0 p1 p2 p3 p4 : Bool) :
    (errorGen pre st t p0 p1 p2 p3 p4).1.fail = t.fail ∧
    (errorGen pre st t p0 p1 p2 p3 p4).1.checker = t.checker ∧
    (errorGen pre st t p0 p1 p2 p3 p4).1.onError = t.onError := by
  simp only [errorGen, errorGenBody, TestChecker.RecoverPanic]
  repeat' split
  all_goals
    simp [TestChecker.True, TestChecker.Truef, TestChecker.Return, TestChecker.Error,
      TestChecker.Output]

/-- C12. Consuming the pending fault does not disarm it. Every checking
operation, the recovery and a whole execution of `errorGen` leave the pending
fault of the `TestChecker` as it was, fired or not, so consuming at an index
returns after them what it returned before; and an execution begun with
`StartRecording` after another, without `ResetFailures` in between, is the same
execution again, injected at the same index. -/
theorem fault_stays_armed {σ : Type} (pre : String) (stack : List Call) (st : Stacks)
    (t : TestChecker (RealChecker Int) σ) (cond : Bool) (msg : String) (args : List String)
    (v : Int) (F : Option GoError) (p0 p1 p2 p3 p4 : Bool) :
    ((t.True pre stack cond msg).1.fail = t.fail ∧
      (t.Truef pre stack cond msg args).1.fail = t.fail ∧
      (t.Return pre stack v F).1.fail = t.fail ∧
      (t.Error pre stack F).1.fail = t.fail ∧
      (t.Output pre stack v F).1.fail = t.fail ∧
      (t.Failure pre stack F).1.fail = t.fail) ∧
    (∀ errPtr panicked : Option GoError, (t.RecoverPanic errPtr panicked).1.fail = t.fail) ∧
    (errorGen pre st t p0 p1 p2 p3 p4).1.fail = t.fail ∧
    (∀ i : Int, failure.fail (errorGen pre st t p0 p1 p2 p3 p4).1.fail i =
      failure.fail t.fail i) ∧
    errorGen pre st (errorGen pre st t.StartRecording p0 p1 p2 p3 p4).1.StartRecording
        p0 p1 p2 p3 p4 =
      errorGen pre st t.StartRecording p0 p1 p2 p3 p4 := by
  have hframe := errorGen_frame pre st t p0 p1 p2 p3 p4
  refine ⟨⟨rfl, rfl, rfl, rfl, rfl, rfl⟩, fun _ _ => rfl, hframe.1, ?_, ?_⟩
  · intro i
    rw [hframe.1]
  · have h := errorGen_frame pre st t.StartRecording p0 p1 p2 p3 p4
    have hstart : (errorGen pre st t.StartRecording p0 p1 p2 p3 p4).1.StartRecording =
        t.StartRecording := by
      cases hr : (errorGen pre st t.StartRecording p0 p1 p2 p3 p4).1 with
      | mk rec fl ck sink =>
        rw [hr] at h
        simp only at h
        simp only [TestChecker.StartRecording] at h ⊢
        rw [h.1, h.2.1, h.2.2]
    rw [hstart]

/-- The fifth row of `TestSimulatedFailures` run twice: the fault armed at 1 is
injected in the second execution as in the first. -/
theorem fault_stays_armed_example :
    (errorGen examplePre errorGenStacks
      (errorGen examplePre errorGenStacks
        (exampleTester.FailAt 1 (some ⟨"some error"⟩)).StartRecording
        true true true true true).1.StartRecording true true true true true).2.1 =
      some ⟨"truef error"⟩ := by
  decide

/-- C16. The five checks `True`, `Truef`, `Return`, `Error`, `Output` of
`errorGen` under its recovering `defer`, with no fault armed, a sound wrapped
checker and an empty recording at the start. With `k` the number of true guards
before the first false one (5 when all are true): the recording has
`min (k + 1) 5` sites, that is `f + 1` for the index `f` of the first false
guard and 5 when there is none; its function names are the first of `True`,
`Truef`, `Return`, `Error`, `Output` and its call sites the callers of these
checks; every position before the last holds a nil error; when all guards are
true the last position holds nil and the execution returns nil; when one is
false the last position holds the error with which the wrapped checker fails
that check, which is non-nil and is the error the execution returns. -/
theorem errorGen_recording {σ : Type} (pre : String) (c0 c1 c2 c3 c4 : CallSite)
    (h0 : c0.Valid pre) (h1 : c1.Valid pre) (h2 : c2.Valid pre) (h3 : c3.Valid pre)
    (h4 : c4.Valid pre) (t : TestChecker (RealChecker Int) σ) (hs : t.checker.Sound)
    (hempty : t.recorder.sites = []) (hfail : t.fail = none) (p0 p1 p2 p3 p4 : Bool) :
    (errorGen pre (stacksOf pre c0 c1 c2 c3 c4) t p0 p1 p2 p3 p4).1.Recording.length =
      min (([p0, p1, p2, p3, p4].takeWhile id).length + 1) 5 ∧
    (errorGen pre (stacksOf pre c0 c1 c2 c3 c4) t p0 p1 p2 p3 p4).1.Recording.map site.fn =
      ["True", "Truef", "Return", "Error", "Output"].take
        (([p0, p1, p2, p3, p4].takeWhile id).length + 1) ∧
    (errorGen pre (stacksOf pre c0 c1 c2 c3 c4) t p0 p1 p2 p3 p4).1.Recording.map site.call =
      [some c0.caller, some c1.caller, some c2.caller, some c3.caller, some c4.caller].take
        (([p0, p1, p2, p3, p4].takeWhile id).length + 1) ∧
    (∀ s ∈ (errorGen pre (stacksOf pre c0 c1 c2 c3 c4) t p0 p1 p2 p3 p4).1.Recording.dropLast,
      s.err = none) ∧
    (([p0, p1, p2, p3, p4].takeWhile id).length = 5 →
      ((errorGen pre (stacksOf pre c0 c1 c2 c3 c4) t p0 p1 p2 p3 p4).1.Recording[4]?).map
          site.err = some none ∧
      (errorGen pre (stacksOf pre c0 c1 c2 c3 c4) t p0 p1 p2 p3 p4).2.1 = none) ∧
    (([p0, p1, p2, p3, p4].takeWhile id).length < 5 →
      ((errorGen pre (stacksOf pre c0 c1 c2 c3 c4) t p0 p1 p2 p3 p4).1.Recording[
          ([p0, p1, p2, p3, p4].takeWhile id).length]?).map site.err =
        [t.checker.True false "true error", t.checker.Truef false "truef %s" ["error"],
          t.checker.Return 0 (some ⟨"return error"⟩), t.checker.Error (some ⟨"error check"⟩),
          t.checker.Output 0 (some ⟨"output error"⟩)][
            ([p0, p1, p2, p3, p4].takeWhile id).length]? ∧
      some (errorGen pre (stacksOf pre c0 c1 c2 c3 c4) t p0 p1 p2 p3 p4).2.1 =
        [t.checker.True false "true error", t.checker.Truef false "truef %s" ["error"],
          t.checker.Return 0 (some ⟨"return error"⟩), t.checker.Error (some ⟨"error check"⟩),
          t.checker.Output 0 (some ⟨"output error"⟩)][
            ([p0, p1, p2, p3, p4].takeWhile id).length]? ∧
      (errorGen pre (stacksOf pre c0 c1 c2 c3 c4) t p0 p1 p2 p3 p4).2.1 ≠ none) := by
  obtain ⟨e0, he0⟩ := Option.ne_none_iff_exists'.1 (hs.true_stop "true error")
  obtain ⟨e1, he1⟩ := Option.ne_none_iff_exists'.1 (hs.truef_stop "truef %s" ["error"])
  obtain ⟨e2, he2⟩ := Option.ne_none_iff_exists'.1 (hs.return_stop 0 ⟨"return error"⟩)
  obtain ⟨e3, he3⟩ := Option.ne_none_iff_exists'.1 (hs.error_stop ⟨"error check"⟩)
  obtain ⟨e4, he4⟩ := Option.ne_none_iff_exists'.1 (hs.output_stop 0 ⟨"output error"⟩)
  cases t with
  | mk rec fl ck sink =>
    cases rec with
    | mk sites =>
      simp only at hempty hfail hs he0 he1 he2 he3 he4
      subst hempty; subst hfail
      cases p0 <;> cases p1 <;> cases p2 <;> cases p3 <;> cases p4 <;>
        simp [errorGen, errorGenBody, stacksOf, TestChecker.True, TestChecker.Truef,
          TestChecker.Return, TestChecker.Error, TestChecker.Output, TestChecker.RecoverPanic,
          TestChecker.Recording, TestChecker.failNow, failure.fail,
          record_stackOf, h0, h1, h2, h3, h4, checkReturn, checkErr, recorder.trackError,
          hs.true_pass, hs.truef_pass, hs.return_pass, hs.error_pass, hs.output_pass,
          hs.recover_none, hs.recover_some, he0, he1, he2, he3, he4]

/-- The scenario of the spec and of `TestRecording`: guards
`[true, true, true, true, false]` give a recording of length 5 in which the
position of `Output` alone holds an error. -/
theorem errorGen_recording_witness :
    (errorGen examplePre errorGenStacks exampleTester true true true true false).1.Recording.length
      = min (([true, true, true, true, false].takeWhile id).length + 1) 5 ∧
    (errorGen examplePre errorGenStacks exampleTester true true true true false).1.Recording =
      [⟨"True", errorGenAt 68, none⟩, ⟨"Truef", errorGenAt 69, none⟩,
       ⟨"Return", errorGenAt 70, none⟩, ⟨"Error", errorGenAt 71, none⟩,
       ⟨"Output", errorGenAt 72, some ⟨"output error; output: 0"⟩⟩] :=
  ⟨(errorGen_recording examplePre (errorGenSite 68) (errorGenSite 69) (errorGenSite 70)
      (errorGenSite 71) (errorGenSite 72) (errorGenSite_valid 68) (errorGenSite_valid 69)
      (errorGenSite_valid 70) (errorGenSite_valid 71) (errorGenSite_valid 72) exampleTester
      simpleChecker_sound rfl rfl true true true true false).1, by decide⟩

/-- C15, as stated, fails. The first row of `TestSimulatedFailures`: with
`FailAt(0, errors.New("some error"))` armed and every guard true, the first
check `True` is made to fail, but position 0 of the recording and the returned
error hold the error of the check itself, "true error", not the armed one. -/
theorem injected_fault_is_recorded_counterexample :
    ((errorGen examplePre errorGenStacks (exampleTester.FailAt 0 (some ⟨"some error"⟩))
        true true true true true).1.Recording[0]?).map site.err =
      some (some ⟨"true error"⟩) ∧
    (errorGen examplePre errorGenStacks (exampleTester.FailAt 0 (some ⟨"some error"⟩))
        true true true true true).2.1 = some ⟨"true error"⟩ ∧
    (some (⟨"true error"⟩ : GoError)) ≠ some ⟨"some error"⟩ := by
  decide

/-- C15, amended. In an execution of `errorGen` (sound wrapped checker, empty
recording at the start) in which the checks at positions `0` to `i` would
organically succeed, arming `FailAt(i, E)` with a non-nil `E` before the run
gives a recording of exactly `i + 1` sites, with nil errors before position
`i`. The error recorded at position `i` is the error the run returns, it is
non-nil, and it is the error with which the wrapped checker fails check `i` on
what the decorator hands it: the condition false with the message of the check
for `True` and `Truef`, and the error `E` for `Return`, `Error` and `Output`. -/
theorem injected_fault_truncates {σ : Type} (pre : String) (c0 c1 c2 c3 c4 : CallSite)
    (h0 : c0.Valid pre) (h1 : c1.Valid pre) (h2 : c2.Valid pre) (h3 : c3.Valid pre)
    (h4 : c4.Valid pre) (t : TestChecker (RealChecker Int) σ) (hs : t.checker.Sound)
    (hempty : t.recorder.sites = []) (i : Nat) (hi : i < 5) (E : GoError)
    (p0 p1 p2 p3 p4 : Bool)
    (horganic : ∀ j : Nat, j ≤ i → [p0, p1, p2, p3, p4][j]? = some true) :
    (errorGen pre (stacksOf pre c0 c1 c2 c3 c4) (t.FailAt i (some E))
        p0 p1 p2 p3 p4).1.Recording.length = i + 1 ∧
    (∀ s ∈ (errorGen pre (stacksOf pre c0 c1 c2 c3 c4) (t.FailAt i (some E))
        p0 p1 p2 p3 p4).1.Recording.dropLast, s.err = none) ∧
    ((errorGen pre (stacksOf pre c0 c1 c2 c3 c4) (t.FailAt i (some E))
        p0 p1 p2 p3 p4).1.Recording[i]?).map site.err =
      [t.checker.True false "true error", t.checker.Truef false "truef %s" ["error"],
        t.checker.Return 0 (some E), t.checker.Error (some E),
        t.checker.Output 0 (some E)][i]? ∧
    some (errorGen pre (stacksOf pre c0 c1 c2 c3 c4) (t.FailAt i (some E))
        p0 p1 p2 p3 p4).2.1 =
      [t.checker.True false "true error", t.checker.Truef false "truef %s" ["error"],
        t.checker.Return 0 (some E), t.checker.Error (some E),
        t.checker.Output 0 (some E)][i]? ∧
    (errorGen pre (stacksOf pre c0 c1 c2 c3 c4) (t.FailAt i (some E))
        p0 p1 p2 p3 p4).2.1 ≠ none := by
  obtain ⟨e0, he0⟩ := Option.ne_none_iff_exists'.1 (hs.true_stop "true error")
  obtain ⟨e1, he1⟩ := Option.ne_none_iff_exists'.1 (hs.truef_stop "truef %s" ["error"])
  obtain ⟨e2, he2⟩ := Option.ne_none_iff_exists'.1 (hs.return_stop 0 E)
  obtain ⟨e3, he3⟩ := Option.ne_none_iff_exists'.1 (hs.error_stop E)
  obtain ⟨e4, he4⟩ := Option.ne_none_iff_exists'.1 (hs.output_stop 0 E)
  have g0 : p0 = true := by simpa using horganic 0 (Nat.zero_le i)
  subst g0
  cases t with
  | mk rec fl ck sink =>
    cases rec with
    | mk sites =>
      simp only at hempty hs he0 he1 he2 he3 he4
      subst hempty
      interval_cases i
      · simp [errorGen, errorGenBody, stacksOf, TestChecker.True, TestChecker.Truef,
          TestChecker.Return, TestChecker.Error, TestChecker.Output, TestChecker.RecoverPanic,
          TestChecker.Recording, TestChecker.failNow, TestChecker.FailAt, failure.fail,
          record_stackOf, recorder.last, h0, h1, h2, h3, h4, checkReturn, checkErr,
          recorder.trackError,
          hs.true_pass, hs.truef_pass, hs.return_pass, hs.error_pass, hs.output_pass,
          hs.recover_none, hs.recover_some, he0, he1, he2, he3, he4]
      · have g1 : p1 = true := by simpa using horganic 1 (by omega)
        subst g1
        simp [errorGen, errorGenBody, stacksOf, TestChecker.True, TestChecker.Truef,
          TestChecker.Return, TestChecker.Error, TestChecker.Output, TestChecker.RecoverPanic,
          TestChecker.Recording, TestChecker.failNow, TestChecker.FailAt, failure.fail,
          record_stackOf, recorder.last, h0, h1, h2, h3, h4, checkReturn, checkErr,
          recorder.trackError,
          hs.true_pass, hs.truef_pass, hs.return_pass, hs.error_pass, hs.output_pass,
          hs.recover_none, hs.recover_some, he0, he1, he2, he3, he4]
      · have g1 : p1 = true := by simpa using horganic 1 (by omega)
        have g2 : p2 = true := by simpa using horganic 2 (by omega)
        subst g1; subst g2
        simp [errorGen, errorGenBody, stacksOf, TestChecker.True, TestChecker.Truef,
          TestChecker.Return, TestChecker.Error, TestChecker.Output, TestChecker.RecoverPanic,
          TestChecker.Recording, TestChecker.failNow, TestChecker.FailAt, failure.fail,
          record_stackOf, recorder.last, h0, h1, h2, h3, h4, checkReturn, checkErr,
          recorder.trackError,
          hs.true_pass, hs.truef_pass, hs.return_pass, hs.error_pass, hs.output_pass,
          hs.recover_none, hs.recover_some, he0, he1, he2, he3, he4]
      · have g1 : p1 = true := by simpa using horganic 1 (by omega)
        have g2 : p2 = true := by simpa using horganic 2 (by omega)
        have g3 : p3 = true := by simpa using horganic 3 (by omega)
        subst g1; subst g2; subst g3
        simp [errorGen, errorGenBody, stacksOf, TestChecker.True, TestChecker.Truef,
          TestChecker.Return, TestChecker.Error, TestChecker.Output, TestChecker.RecoverPanic,
          TestChecker.Recording, TestChecker.failNow, TestChecker.FailAt, failure.fail,
          record_stackOf, recorder.last, h0, h1, h2, h3, h4, checkReturn, checkErr,
          recorder.trackError,
          hs.true_pass, hs.truef_pass, hs.return_pass, hs.error_pass, hs.output_pass,
          hs.recover_none, hs.recover_some, he0, he1, he2, he3, he4]
      · have g1 : p1 = true := by simpa using horganic 1 (by omega)
        have g2 : p2 = true := by simpa using horganic 2 (by omega)
        have g3 : p3 = true := by simpa using horganic 3 (by omega)
        have g4 : p4 = true := by simpa using horganic 4 (by omega)
        subst g1; subst g2; subst g3; subst g4
        simp [errorGen, errorGenBody, stacksOf, TestChecker.True, TestChecker.Truef,
          TestChecker.Return, TestChecker.Error, TestChecker.Output, TestChecker.RecoverPanic,
          TestChecker.Recording, TestChecker.failNow, TestChecker.FailAt, failure.fail,
          record_stackOf, recorder.last, h0, h1, h2, h3, h4, checkReturn, checkErr,
          recorder.trackError,
          hs.true_pass, hs.truef_pass, hs.return_pass, hs.error_pass, hs.output_pass,
          hs.recover_none, hs.recover_some, he0, he1, he2, he3, he4]

/-- The rows of `TestSimulatedFailures` that arm a fault at 2 on the clean run:
the recording stops at `Return`, which holds the armed error. -/
theorem injected_fault_truncates_witness :
    (errorGen examplePre errorGenStacks (exampleTester.FailAt 2 (some ⟨"some error"⟩))
        true true true true true).1.Recording.length = 2 + 1 ∧
    (errorGen examplePre errorGenStacks (exampleTester.FailAt 2 (some ⟨"some error"⟩))
        true true true true true).1.Recording =
      [⟨"True", errorGenAt 68, none⟩, ⟨"Truef", errorGenAt 69, none⟩,
       ⟨"Return", errorGenAt 70, some ⟨"some error"⟩⟩] :=
  ⟨(injected_fault_truncates examplePre (errorGenSite 68) (errorGenSite 69) (errorGenSite 70)
      (errorGenSite 71) (errorGenSite 72) (errorGenSite_valid 68) (errorGenSite_valid 69)
      (errorGenSite_valid 70) (errorGenSite_valid 71) (errorGenSite_valid 72) exampleTester
      simpleChecker_sound rfl 2 (by decide) ⟨"some error"⟩ true true true true true
      (by
        intro j hj
        interval_cases j <;> rfl)).1, by decide⟩

end Testfault
